import Mathlib

/-!
Verification of the go-quality-gate core against its specification.

The Go source is shallowly embedded: pure fragments become Lean functions,
filesystem and shell effects become explicit parameters (oracles / state
threading), and Go's unordered-map iteration becomes an explicit iteration
order parameter wherever the source ranges over a map whose order can leak
into observable output.
-/

namespace QG

/-! ## String helpers mirroring Go's `strings` / `path/filepath` packages.
All inputs in this development are ASCII apart from fixed literal names, so
the ASCII versions of `ToLower` / `IsSpace` coincide with Go's Unicode ones
on every string that actually occurs. -/

/-- Whitespace test used by Go's `strings.TrimSpace` / `strings.Fields`
(ASCII part of `unicode.IsSpace`). -/
def isGoSpace (c : Char) : Bool :=
  c = ' ' || c = '\t' || c = '\n' || c = '\r' || c = Char.ofNat 11 || c = Char.ofNat 12

/-- Core of `strings.Contains`: does `needle` occur as a contiguous sublist? -/
def listHasSub : List Char → List Char → Bool
  | [], n => n.isEmpty
  | c :: t, n => n.isPrefixOf (c :: t) || listHasSub t n

/-- Go `strings.Contains`. -/
def strContains (s sub : String) : Bool :=
  listHasSub s.data sub.data

/-- Go `strings.HasPrefix`. -/
def strStartsWith (s p : String) : Bool :=
  p.data.isPrefixOf s.data

/-- Go `strings.TrimSpace` (ASCII whitespace). -/
def trimSpace (s : String) : String :=
  ⟨((s.data.dropWhile isGoSpace).reverse.dropWhile isGoSpace).reverse⟩

/-- Go `strings.ToLower` (ASCII case folding). -/
def toLowerStr (s : String) : String :=
  ⟨s.data.map Char.toLower⟩

/-- Number of occurrences of the character `c` (Go `strings.Count` with a
one-character separator). -/
def charCount (s : String) (c : Char) : Nat :=
  s.data.count c

/-- Splitter shared by Go's `strings.Fields` and `strings.FieldsFunc`:
maximal runs of non-separator characters, separators dropped. -/
def splitFieldsAux (p : Char → Bool) : List Char → List Char → List String
  | [], acc => if acc = [] then [] else [⟨acc.reverse⟩]
  | c :: t, acc =>
      if p c then
        (if acc = [] then splitFieldsAux p t [] else ⟨acc.reverse⟩ :: splitFieldsAux p t [])
      else
        splitFieldsAux p t (c :: acc)

/-- Go `strings.Fields`. -/
def goFields (s : String) : List String :=
  splitFieldsAux isGoSpace s.data []

/-- Separator set of the `strings.FieldsFunc` call in
`analyzePythonRequirements` (`=`, `>`, `<`, `!`, `~`). -/
def isVerSep (c : Char) : Bool :=
  c = '=' || c = '>' || c = '<' || c = '!' || c = Char.ofNat 126

/-- The `strings.FieldsFunc` call in `analyzePythonRequirements`. -/
def fieldsVer (s : String) : List String :=
  splitFieldsAux isVerSep s.data []

/-- Non-overlapping substring count, fuelled for structural recursion
(each step consumes at least one character, so the initial hay length is
enough fuel); used to state the delimiter-balance property of claim C8. -/
def subCountFuel (needle : List Char) : Nat → List Char → Nat
  | 0, _ => 0
  | _ + 1, [] => 0
  | fuel + 1, c :: t =>
      if needle ≠ [] ∧ needle.isPrefixOf (c :: t) then
        1 + subCountFuel needle fuel ((c :: t).drop needle.length)
      else
        subCountFuel needle fuel t

/-- Non-overlapping substring count on strings (Go `strings.Count` for a
nonempty separator). -/
def strCount (s sub : String) : Nat :=
  subCountFuel sub.data s.data.length s.data

/-- Split a character list at every occurrence of the separator `c`
(empty pieces kept), mirroring Go `strings.Split` with a one-character
separator. -/
def splitOnCharAux (c : Char) : List Char → List Char → List (List Char)
  | [], acc => [acc.reverse]
  | x :: t, acc =>
      if x = c then acc.reverse :: splitOnCharAux c t []
      else splitOnCharAux c t (x :: acc)

/-- String-level split on one character. -/
def splitOnChar (c : Char) (s : String) : List String :=
  (splitOnCharAux c s.data []).map (fun l => ⟨l⟩)

/-- Go `filepath.Base`: last path element, with trailing slashes removed;
`"."` for the empty path, `"/"` when only slashes remain. -/
def pathBase (p : String) : String :=
  if p = "" then "." else
    match ((splitOnChar '/' p).filter (fun x => x ≠ "")).getLast? with
    | some b => b
    | none => "/"

/-- Go `filepath.Join` restricted to the shapes the analyzer produces:
joining the current-directory path `"."` with a name cleans to the name. -/
def joinPath (dir name : String) : String :=
  if dir = "." then name else dir ++ "/" ++ name

/-- Go `filepath.Ext`: the suffix starting at the final dot, `""` if none. -/
def extOfAux : List Char → Option (List Char)
  | [] => none
  | c :: t =>
      match extOfAux t with
      | some e => some e
      | none => if c = '.' then some (c :: t) else none

/-- Go `filepath.Ext` on a bare file name. -/
def extOf (s : String) : String :=
  match extOfAux s.data with
  | some e => ⟨e⟩
  | none => ""

/-! ## Regular expressions.
`validateCommand` matches commands against nine RE2 pattern strings via
`regexp.MatchString`.  We embed exactly the regex features those patterns
use (literals, character classes, concatenation, alternation, star) with a
Brzozowski-derivative matcher, and transcribe each pattern string into the
syntax tree a reviewer can check against RE2 semantics. -/

/-- Regex syntax: empty language, empty word, character class, sequence,
alternation, Kleene star. -/
inductive Re where
  | emp : Re
  | eps : Re
  | cls : (Char → Bool) → Re
  | seq : Re → Re → Re
  | alt : Re → Re → Re
  | star : Re → Re

/-- Does the regex accept the empty word? -/
def Re.nullable : Re → Bool
  | .emp => false
  | .eps => true
  | .cls _ => false
  | .seq a b => a.nullable && b.nullable
  | .alt a b => a.nullable || b.nullable
  | .star _ => true

/-- Brzozowski derivative by one character. -/
def Re.deriv : Re → Char → Re
  | .emp, _ => .emp
  | .eps, _ => .emp
  | .cls p, c => if p c then .eps else .emp
  | .seq a b, c =>
      if a.nullable then .alt (.seq (a.deriv c) b) (b.deriv c) else .seq (a.deriv c) b
  | .alt a b, c => .alt (a.deriv c) (b.deriv c)
  | .star a, c => .seq (a.deriv c) (.star a)

/-- Whole-string match. -/
def Re.matches (r : Re) (s : String) : Bool :=
  (s.data.foldl Re.deriv r).nullable

/-- Single literal character. -/
def Re.chr (c : Char) : Re :=
  .cls (fun x => x = c)

/-- Literal string. -/
def rstr (s : String) : Re :=
  s.data.foldr (fun c r => .seq (.chr c) r) .eps

/-- Concatenation of a pattern list. -/
def rcat (l : List Re) : Re :=
  l.foldr .seq .eps

/-- RE2 `\s` class: `[\t\n\f\r ]`. -/
def reWS : Re :=
  .cls (fun c => c = '\t' || c = '\n' || c = Char.ofNat 12 || c = '\r' || c = ' ')

/-- RE2 `.`: any character except newline. -/
def reDot : Re :=
  .cls (fun c => c ≠ '\n')

/-- Any character at all (used for the unanchored-search wrapper). -/
def reAny : Re :=
  .cls (fun _ => true)

/-- One-or-more (`x+` desugars to `x x*`). -/
def rplus (r : Re) : Re :=
  .seq r (.star r)

/-- Go `regexp.MatchString`: unanchored search, i.e. a whole-string match of
`.*pattern.*` with an unrestricted wildcard. -/
def matchString (r : Re) (s : String) : Bool :=
  (rcat [.star reAny, r, .star reAny]).matches s

/-- Left and right curly-brace characters (written via code points). -/
def lbrace : Char := Char.ofNat 123

/-- Right curly brace. -/
def rbrace : Char := Char.ofNat 125

/-- The `dangerousPatterns` table of `validateCommand`, each transcribed
from its RE2 pattern string:
`rm\s+-rf\s+/`, `rm\s+-rf\s+\*`, `sudo\s+rm`, `>\s*/dev/sd[a-z]`,
`dd\s+.*of=/dev`, `curl.*\|\s*sh`, `wget.*\|\s*sh`, `eval\s+\$\(.*curl`,
and the fork-bomb pattern `:\(\)\x7b.*;\x7d:`. -/
def dangerousPatterns : List Re :=
  [ rcat [rstr "rm", rplus reWS, rstr "-rf", rplus reWS, Re.chr '/'],
    rcat [rstr "rm", rplus reWS, rstr "-rf", rplus reWS, Re.chr '*'],
    rcat [rstr "sudo", rplus reWS, rstr "rm"],
    rcat [Re.chr '>', .star reWS, rstr "/dev/sd",
          .cls (fun c => 97 ≤ c.toNat && c.toNat ≤ 122)],
    rcat [rstr "dd", rplus reWS, .star reDot, rstr "of=/dev"],
    rcat [rstr "curl", .star reDot, Re.chr '|', .star reWS, rstr "sh"],
    rcat [rstr "wget", .star reDot, Re.chr '|', .star reWS, rstr "sh"],
    rcat [rstr "eval", rplus reWS, Re.chr '$', Re.chr '(', .star reDot, rstr "curl"],
    rcat [Re.chr ':', Re.chr '(', Re.chr ')', Re.chr lbrace, .star reDot,
          Re.chr ';', Re.chr rbrace, Re.chr ':'] ]

/-! ## Configuration data model (`internal/config/config.go`).
Go's `map[string]map[string][]Hook` is embedded as an association list in
one concrete iteration order; theorems quantify over the list, hence over
every possible iteration order. -/

/-- A tool with its presence-check and install commands. -/
structure Tool where
  name : String
  checkCommand : String
  installCommand : String
  deriving DecidableEq, Repr

/-- Output display policy of a hook. -/
structure OutputRules where
  showOn : String
  onFailureMessage : String
  deriving DecidableEq, Repr

/-- A hook: named command with optional fix command and output rules. -/
structure Hook where
  name : String
  command : String
  fixCommand : String
  outputRules : OutputRules
  deriving DecidableEq, Repr

/-- One hook group: hook-type key (e.g. "pre-commit") to ordered hooks,
in map-iteration order. -/
abbrev HookGroup := List (String × List Hook)

/-- The `hooks` section: group name to group, in map-iteration order. -/
abbrev HooksMap := List (String × HookGroup)

/-- The whole configuration. -/
structure Config where
  tools : List Tool
  hooks : HooksMap
  deriving DecidableEq, Repr

/-! ## Config validator (`internal/config/validator.go`). -/

/-- Severity of a validation finding. -/
inductive ValidationSeverity where
  | warning : ValidationSeverity
  | error : ValidationSeverity
  | critical : ValidationSeverity
  deriving DecidableEq, Repr

/-- A single validation finding. -/
structure ValidationError where
  field : String
  value : String
  issue : String
  suggestion : String
  severity : ValidationSeverity
  deriving DecidableEq, Repr

/-- Result of `Validate`. -/
structure ValidationResult where
  valid : Bool
  errors : List ValidationError
  deriving DecidableEq, Repr

/-- One conditional `append(result.Errors, e)` site. -/
def emitIf (b : Bool) (e : ValidationError) : List ValidationError :=
  if b then [e] else []

/-- Result of `os.Stat("quality.yml")`: either the stat error or the file's
permission bits (the only part of the `FileInfo` the validator reads). -/
inductive FsState where
  | statError : FsState
  | ok : Nat → FsState

/-- Outcome oracle for `exec.LookPath`: is the named command on `PATH`? -/
abbrev LookPath := String → Bool

/-- The `commonTypos` table of `validateToolNames`, in source listing order
(the Go map's iteration order is unspecified; only the multiset of emitted
findings, all Warnings, is order-sensitive, and no claim depends on it). -/
def commonTypos : List (String × String) :=
  [ ("prettier", "prettier"), ("pretier", "prettier"), ("pretter", "prettier"),
    ("eslint", "eslint"), ("esslint", "eslint"), ("eslinter", "eslint"),
    ("pytest", "pytest"), ("py.test", "pytest"),
    ("ruf", "ruff"), ("ruff ", "ruff"),
    ("gofmt ", "gofmt"), ("go fmt", "gofmt"),
    ("golangci", "golangci-lint"), ("golangci-lint", "golangci-lint") ]

/-- `validateToolNames`: substring match against the typo table. -/
def validateToolNames (command fieldPath : String) : List ValidationError :=
  commonTypos.flatMap
    (fun tc =>
      emitIf (strContains (toLowerStr command) tc.1 && tc.1 ≠ tc.2)
        { field := fieldPath, value := command,
          issue := "Possible typo: '" ++ tc.1 ++ "' should be '" ++ tc.2 ++ "'",
          suggestion := "Check if you meant '" ++ tc.2 ++ "' instead of '" ++ tc.1 ++ "'",
          severity := .warning })

/-- `validateCommandSyntax`: unmatched quote checks then typo heuristic. -/
def validateCommandSyntax (command fieldPath : String) : List ValidationError :=
  emitIf (charCount command (Char.ofNat 39) % 2 ≠ 0)
    { field := fieldPath, value := command,
      issue := "Unmatched single quotes in command",
      suggestion := "Ensure all single quotes are properly paired",
      severity := .error } ++
  emitIf (charCount command (Char.ofNat 34) % 2 ≠ 0)
    { field := fieldPath, value := command,
      issue := "Unmatched double quotes in command",
      suggestion := "Ensure all double quotes are properly paired",
      severity := .error } ++
  validateToolNames command fieldPath

/-- The Critical finding of the dangerous-pattern check. -/
def dangerousFinding (command fieldPath : String) : ValidationError :=
  { field := fieldPath, value := command,
    issue := "Potentially dangerous command detected",
    suggestion := "Review the command for security implications",
    severity := .critical }

/-- `validateCommand`: the source loops over `dangerousPatterns` and breaks
after the first match, so it appends the Critical finding exactly once iff
some pattern matches; then runs the syntax checks. -/
def validateCommand (command fieldPath : String) : List ValidationError :=
  emitIf (dangerousPatterns.any (fun p => matchString p command))
    (dangerousFinding command fieldPath) ++
  validateCommandSyntax command fieldPath

/-- `validateMessageTemplate`: warn when the message has `\x7b\x7b` but no
`\x7d\x7d` at all. -/
def validateMessageTemplate (message fieldPath : String) : List ValidationError :=
  emitIf (strContains message "\x7b\x7b" && !strContains message "\x7d\x7d")
    { field := fieldPath, value := message,
      issue := "Unclosed template variable in message",
      suggestion := "Ensure all \x7b\x7b variables \x7d\x7d are properly closed",
      severity := .warning }

/-- `validateOutputRules`. -/
def validateOutputRules (rules : OutputRules) (fieldPath : String) :
    List ValidationError :=
  emitIf (rules.showOn ≠ "" && !(["always", "failure", "success"].contains rules.showOn))
    { field := fieldPath ++ ".show_on", value := rules.showOn,
      issue := "Invalid show_on value",
      suggestion := "Use 'always', 'failure', or 'success'",
      severity := .error } ++
  (if rules.onFailureMessage ≠ "" then
    validateMessageTemplate rules.onFailureMessage (fieldPath ++ ".on_failure_message")
  else [])

/-- Findings for one entry of a hook's command list. -/
def validateOneHookCommand (i : Nat) (cmd : Hook) (fieldPrefix : String) :
    List ValidationError :=
  let cmdFieldPrefix := fieldPrefix ++ "[" ++ Nat.repr i ++ "]"
  emitIf (trimSpace cmd.name = "")
    { field := cmdFieldPrefix ++ ".name", value := cmd.name,
      issue := "Command name is empty",
      suggestion := "Provide a descriptive name with emoji (e.g., '🎨 Format Check')",
      severity := .error } ++
  (if trimSpace cmd.command = "" then
    [{ field := cmdFieldPrefix ++ ".command", value := cmd.command,
       issue := "Command is empty",
       suggestion := "Provide the command to execute",
       severity := .critical }]
  else validateCommand cmd.command (cmdFieldPrefix ++ ".command")) ++
  (if cmd.fixCommand ≠ "" then
    validateCommand cmd.fixCommand (cmdFieldPrefix ++ ".fix_command")
  else []) ++
  validateOutputRules cmd.outputRules (cmdFieldPrefix ++ ".output_rules")

/-- `validateCommands`. -/
def validateCommands (commands : List Hook) (fieldPrefix : String) :
    List ValidationError :=
  if commands = [] then
    [{ field := fieldPrefix, value := "empty",
       issue := "No commands configured for this hook",
       suggestion := "Add at least one command for this hook",
       severity := .warning }]
  else
    commands.enum.flatMap (fun p => validateOneHookCommand p.1 p.2 fieldPrefix)

/-- `validateToolAvailability`: warn when a simple leading command of the
check command is not found on `PATH` (`exec.LookPath` as oracle). -/
def validateToolAvailability (tool : Tool) (fieldPrefix : String)
    (look : LookPath) : List ValidationError :=
  match goFields tool.checkCommand with
  | [] => []
  | cmdName :: _ =>
      if strContains cmdName "/" || strContains cmdName "|" || strContains cmdName "&" then
        []
      else
        emitIf (!look cmdName)
          { field := fieldPrefix ++ ".check_command", value := tool.checkCommand,
            issue := "Tool '" ++ cmdName ++ "' not found in PATH",
            suggestion := "Install '" ++ tool.name ++ "' or check the installation command: "
              ++ tool.installCommand,
            severity := .warning }

/-- Findings for one entry of the tools list. -/
def validateOneTool (i : Nat) (tool : Tool) (look : LookPath) :
    List ValidationError :=
  let fieldPrefix := "tools[" ++ Nat.repr i ++ "]"
  emitIf (trimSpace tool.name = "")
    { field := fieldPrefix ++ ".name", value := tool.name,
      issue := "Tool name is empty",
      suggestion := "Provide a descriptive name for the tool",
      severity := .error } ++
  (if trimSpace tool.checkCommand = "" then
    [{ field := fieldPrefix ++ ".check_command", value := tool.checkCommand,
       issue := "Check command is empty",
       suggestion := "Provide a command to check if the tool is installed (e.g., 'tool --version')",
       severity := .error }]
  else validateCommand tool.checkCommand (fieldPrefix ++ ".check_command")) ++
  (if trimSpace tool.installCommand = "" then
    [{ field := fieldPrefix ++ ".install_command", value := tool.installCommand,
       issue := "Install command is empty",
       suggestion := "Provide a command to install the tool",
       severity := .warning }]
  else validateCommand tool.installCommand (fieldPrefix ++ ".install_command")) ++
  validateToolAvailability tool fieldPrefix look

/-- `validateTools`. -/
def validateTools (cfg : Config) (look : LookPath) : List ValidationError :=
  if cfg.tools = [] then
    [{ field := "tools", value := "empty",
       issue := "No tools configured",
       suggestion := "Add at least one tool configuration for quality checks",
       severity := .warning }]
  else
    cfg.tools.enum.flatMap (fun p => validateOneTool p.1 p.2 look)

/-- Findings for one hook group. -/
def validateOneHookGroup (hookName : String) (hookGroup : HookGroup) :
    List ValidationError :=
  let fieldPrefix := "hooks." ++ hookName
  emitIf (trimSpace hookName = "")
    { field := fieldPrefix, value := hookName,
      issue := "Hook group name is empty",
      suggestion := "Use descriptive names like 'security', 'backend', 'frontend'",
      severity := .error } ++
  hookGroup.flatMap
    (fun p =>
      if p.2.length > 0 then validateCommands p.2 (fieldPrefix ++ "." ++ p.1) else []) ++
  emitIf (!hookGroup.any (fun p => p.2.length > 0))
    { field := fieldPrefix, value := "no hooks",
      issue := "No hook types configured (pre-commit, pre-push)",
      suggestion := "Add at least one hook type with commands",
      severity := .warning }

/-- `validateHooks`. -/
def validateHooks (cfg : Config) : List ValidationError :=
  if cfg.hooks = [] then
    [{ field := "hooks", value := "empty",
       issue := "No hooks configured",
       suggestion := "Add at least one hook configuration (pre-commit, pre-push, etc.)",
       severity := .warning }]
  else
    cfg.hooks.flatMap (fun g => validateOneHookGroup g.1 g.2)

/-- The `commonTools` table of `checkCommandToolReferences`. -/
def commonTools : List String :=
  [ "prettier", "eslint", "ruff", "black", "pytest", "gofmt", "golangci-lint",
    "rustfmt", "cargo", "php-cs-fixer", "phpstan", "gitleaks" ]

/-- `checkCommandToolReferences`. -/
def checkCommandToolReferences (commands : List Hook) (availableTools : List String)
    (fieldPrefix : String) : List ValidationError :=
  commands.enum.flatMap
    (fun p =>
      let cmdFieldPrefix := fieldPrefix ++ "[" ++ Nat.repr p.1 ++ "]"
      match goFields p.2.command with
      | [] => []
      | first :: rest =>
          let cmdName :=
            if strStartsWith first "npx" && rest.length > 0 then rest.headD first else first
          emitIf (commonTools.contains cmdName && !availableTools.contains cmdName)
            { field := cmdFieldPrefix ++ ".command", value := p.2.command,
              issue := "Command uses '" ++ cmdName ++ "' but no tool configuration found",
              suggestion := "Add a tool configuration for '" ++ cmdName
                ++ "' in the tools section",
              severity := .warning })

/-- `validateToolReferences`: the `availableTools` Go map is used only for
membership, embedded as the list of leading check-command tokens. -/
def validateToolReferences (cfg : Config) : List ValidationError :=
  let availableTools :=
    cfg.tools.flatMap (fun t =>
      match goFields t.checkCommand with
      | [] => []
      | cmdName :: _ => [cmdName])
  cfg.hooks.flatMap
    (fun g =>
      g.2.flatMap (fun p =>
        if p.2.length > 0 then
          checkCommandToolReferences p.2 availableTools ("hooks." ++ g.1 ++ "." ++ p.1)
        else []))

/-- Assoc lookup with the most recent binding first (the `seen` Go map of
`validateDuplicateToolNames`). -/
def lookupSeen : List (String × Nat) → String → Option Nat
  | [], _ => none
  | (k, v) :: rest, n => if k = n then some v else lookupSeen rest n

/-- One step of the duplicate-name scan: emit when the name was seen, then
record the current index. -/
def dupStep (acc : List ValidationError × List (String × Nat)) (p : Nat × Tool) :
    List ValidationError × List (String × Nat) :=
  match lookupSeen acc.2 p.2.name with
  | some prevIndex =>
      (acc.1 ++
        [{ field := "tools[" ++ Nat.repr p.1 ++ "].name", value := p.2.name,
           issue := "Duplicate tool name (also defined at tools[" ++ Nat.repr prevIndex ++ "])",
           suggestion := "Use unique names for each tool or merge configurations",
           severity := .error }],
        (p.2.name, p.1) :: acc.2)
  | none => (acc.1, (p.2.name, p.1) :: acc.2)

/-- `validateDuplicateToolNames`. -/
def validateDuplicateToolNames (cfg : Config) : List ValidationError :=
  (cfg.tools.enum.foldl dupStep ([], [])).1

/-- `validateEssentialHooks`. -/
def validateEssentialHooks (cfg : Config) : List ValidationError :=
  emitIf (!cfg.hooks.any (fun g => strContains (toLowerStr g.1) "security"))
    { field := "hooks", value := "missing security",
      issue := "No security hooks configured",
      suggestion := "Consider adding a security hook group with tools like gitleaks for secret detection",
      severity := .warning }

/-- `validateFileSystem`: stat failure is Critical, unreadable permission
bits are an Error. -/
def validateFileSystem (fs : FsState) : List ValidationError :=
  match fs with
  | .statError =>
      [{ field := "file", value := "quality.yml",
         issue := "Cannot access quality.yml file",
         suggestion := "Ensure quality.yml exists and is readable",
         severity := .critical }]
  | .ok perm =>
      emitIf (perm &&& 0o044 = 0)
        { field := "file", value := "quality.yml",
          issue := "quality.yml is not readable",
          suggestion := "Fix file permissions: chmod 644 quality.yml",
          severity := .error }

/-- `validateCommonIssues` (`validateDuplicateHookGroups` is a no-op in the
source). -/
def validateCommonIssues (cfg : Config) (fs : FsState) : List ValidationError :=
  validateDuplicateToolNames cfg ++ validateEssentialHooks cfg ++ validateFileSystem fs

/-- `hasCriticalOrErrorSeverity`. -/
def hasCriticalOrErrorSeverity (errors : List ValidationError) : Bool :=
  errors.any (fun e => e.severity = .critical || e.severity = .error)

/-- `Validate`: accumulate all findings, then overall validity is the
absence of Error/Critical findings. -/
def validate (cfg : Config) (fs : FsState) (look : LookPath) : ValidationResult :=
  let errors :=
    validateTools cfg look ++ validateHooks cfg ++ validateToolReferences cfg ++
    validateCommonIssues cfg fs
  { valid := !hasCriticalOrErrorSeverity errors, errors := errors }

/-! ## Shell-execution collaborator.
`repository.ShellRunner.Run(command) -> (output, err)` is embedded as a
state-threading oracle: `σ` is the state of the outside world (files a
formatter may rewrite, tools an installer may add), and running a command
yields captured output, an optional error message (`none` means exit 0),
and the successor world state.  The embedded services additionally return the
ordered trace of commands they handed to the oracle, which is how the
fail-fast / fail-complete claims are stated. -/

/-- Result of one hook execution (`domain.ExecutionResult`; the wall-clock
`Duration` field is real time and is not embedded). -/
structure ExecutionResult where
  hook : Hook
  success : Bool
  output : String
  deriving DecidableEq, Repr

/-- `HookRunnerService.RunHooks`: strictly sequential loop, one result
appended per hook; logger output is display-only and not embedded. -/
def runHooks {σ : Type} (run : σ → String → (String × Option String) × σ) :
    σ → List Hook → List ExecutionResult × List String × σ
  | s, [] => ([], [], s)
  | s, h :: t =>
      let q := run s h.command
      let rest := runHooks run q.2 t
      ({ hook := h, success := q.1.2.isNone, output := q.1.1 } :: rest.1,
       h.command :: rest.2.1, rest.2.2)

/-- `ToolManagerService.EnsureToolsInstalled`: per tool run the check
command; on check failure run the install command; on install failure abort
with `fmt.Errorf("failed to install %s: %w\n%s", name, err, output)`. -/
def ensureToolsInstalled {σ : Type} (run : σ → String → (String × Option String) × σ) :
    σ → List Tool → Except String Unit × List String × σ
  | s, [] => (.ok (), [], s)
  | s, t :: ts =>
      match run s t.checkCommand with
      | ((_, none), s1) =>
          match ensureToolsInstalled run s1 ts with
          | (r, tr, s2) => (r, t.checkCommand :: tr, s2)
      | ((_, some _), s1) =>
          match run s1 t.installCommand with
          | ((_, none), s2) =>
              match ensureToolsInstalled run s2 ts with
              | (r, tr, s3) => (r, t.checkCommand :: t.installCommand :: tr, s3)
          | ((out2, some e), s2) =>
              (.error ("failed to install " ++ t.name ++ ": " ++ e ++ "\n" ++ out2),
               [t.checkCommand, t.installCommand], s2)

/-- `HookRunnerService.RunFixCommand`. -/
def runFixCommand {σ : Type} (run : σ → String → (String × Option String) × σ)
    (s : σ) (hook : Hook) : Except String String × List String × σ :=
  if hook.fixCommand = "" then
    (.error ("no fix command defined for hook: " ++ hook.name), [], s)
  else
    match run s hook.fixCommand with
    | ((out, some e), s1) =>
        (.error ("failed to run fix command for " ++ hook.name ++ ": " ++ e ++ "\n" ++ out),
         [hook.fixCommand], s1)
    | ((out, none), s1) => (.ok out, [hook.fixCommand], s1)

/-- The fix loop of `QualityGateService.Fix` over the already-resolved hook
list: skip hooks without a fix command, abort on the first fix failure,
wrapping the inner error as
`fmt.Errorf("failed to run fix command for hook %s: %w", name, err)`. -/
def fixHooks {σ : Type} (run : σ → String → (String × Option String) × σ) :
    σ → List Hook → Except String Unit × List String × σ
  | s, [] => (.ok (), [], s)
  | s, h :: t =>
      if h.fixCommand = "" then fixHooks run s t
      else
        match runFixCommand run s h with
        | (.error e, tr, s1) =>
            (.error ("failed to run fix command for hook " ++ h.name ++ ": " ++ e), tr, s1)
        | (.ok _, tr, s1) =>
            match fixHooks run s1 t with
            | (r, tr2, s2) => (r, tr ++ tr2, s2)

/-! ## Project analyzer (`LanguageDetector`, detector source file).
The directory tree is embedded as data; `filepath.Walk` visits entries of a
directory in lexical order, embedded here as the order of the entry list.
`encoding/json` is external to the repository, so a manifest file's content
carries both its raw text and the outcome `json.Unmarshal` would produce on
it (`none` models a parse failure, which the detector swallows).
`analyzeComposerJson` ranges over its Go tool-table map, whose iteration
order is unspecified: the order is an explicit parameter `ord`, always a
permutation of `composerToolsTable`. -/

/-- Detected language or framework identifier (the Go `Language` string
type; constants below mirror the source's typed constants). -/
abbrev Language := String

/-- Parse outcome of `package.json`: the key sets of the two dependency
sections (values are never read) plus whether reading/parsing succeeded. -/
structure PkgJson where
  dependencies : List String
  devDependencies : List String
  deriving DecidableEq, Repr

/-- Parse outcome of `composer.json`. -/
structure ComposerJson where
  require : List String
  requireDev : List String
  deriving DecidableEq, Repr

/-- Content of one file: raw text plus the modelled `json.Unmarshal`
outcomes for the two structured manifests. `readOk = false` models an
`os.ReadFile` error, which every analyzer swallows. -/
structure Content where
  readOk : Bool
  raw : String
  pkg : Option PkgJson
  comp : Option ComposerJson
  deriving DecidableEq, Repr

/-- A file with no analyzer-relevant content. -/
def plainContent : Content :=
  { readOk := true, raw := "", pkg := none, comp := none }

mutual
/-- A node of the scanned tree. -/
inductive FsNode where
  | file : Content → FsNode
  | dir : FsEntries → FsNode
  deriving DecidableEq

/-- Named entries of a directory, in the (lexical) order `filepath.Walk`
visits them. -/
inductive FsEntries where
  | nil : FsEntries
  | cons : String → FsNode → FsEntries → FsEntries
  deriving DecidableEq
end

/-- `ProjectStructure`; the Go `map[string][]string` structure field is
embedded as an association list in first-insertion order (Go map equality
disregards order, so equality of this embedding implies map equality). -/
structure ProjectStructure where
  languages : List Language
  frameworks : List Language
  tools : List String
  structureMap : List (String × List String)
  deriving DecidableEq, Repr

/-- The empty structure `DetectProjectStructure` starts from. -/
def emptyStructure : ProjectStructure :=
  { languages := [], frameworks := [], tools := [], structureMap := [] }

/-- `structure.Structure[key] = append(structure.Structure[key], path)`. -/
def mapAppend : List (String × List String) → String → String → List (String × List String)
  | [], k, v => [(k, [v])]
  | (k', l) :: rest, k, v =>
      if k' = k then (k', l ++ [v]) :: rest else (k', l) :: mapAppend rest k v

/-- `hasLanguage`. -/
def hasLanguage (lang : Language) (st : ProjectStructure) : Bool :=
  st.languages.contains lang

/-- `addLanguageIfNotExists`. -/
def addLanguageIfNotExists (lang : Language) (st : ProjectStructure) : ProjectStructure :=
  if hasLanguage lang st then st else { st with languages := st.languages ++ [lang] }

/-- `addFrameworkIfNotExists`. -/
def addFrameworkIfNotExists (fw : Language) (st : ProjectStructure) : ProjectStructure :=
  if st.frameworks.contains fw then st else { st with frameworks := st.frameworks ++ [fw] }

/-- `addToolIfNotExists`. -/
def addToolIfNotExists (tool : String) (st : ProjectStructure) : ProjectStructure :=
  if st.tools.contains tool then st else { st with tools := st.tools ++ [tool] }

/-- Append one detected path under a language key. -/
def addStructurePath (key path : String) (st : ProjectStructure) : ProjectStructure :=
  { st with structureMap := mapAppend st.structureMap key path }

/-- `shouldSkipDirectory`. -/
def shouldSkipDirectory (dirname : String) : Bool :=
  [ ".git", ".svn", ".hg",
    "node_modules", "vendor", "target",
    ".venv", "venv", "__pycache__",
    ".next", ".nuxt", "dist", "build",
    ".idea", ".vscode" ].contains dirname
  || strStartsWith dirname "."

/-- One `if condition { st = f(st) }` statement of the source. -/
def condStep (c : Bool) (f : ProjectStructure → ProjectStructure)
    (st : ProjectStructure) : ProjectStructure :=
  if c then f st else st

/-- The dependency-driven part of `analyzePackageJson`; `allDeps` is the
merged key set of the two dependency sections. -/
def analyzePackageJsonDeps (allDeps : List String) (st : ProjectStructure) :
    ProjectStructure :=
  ["eslint", "prettier", "jest", "vitest", "cypress", "playwright"].foldl
    (fun st tool => condStep (allDeps.contains tool) (addToolIfNotExists tool) st)
    (condStep (allDeps.contains "@angular/core") (addFrameworkIfNotExists "angular")
      (condStep (allDeps.contains "vue") (addFrameworkIfNotExists "vue")
        (condStep (allDeps.contains "react") (addFrameworkIfNotExists "react")
          (condStep (allDeps.contains "typescript") (addLanguageIfNotExists "typescript") st))))

/-- `analyzePackageJson`. -/
def analyzePackageJson (c : Content) (st : ProjectStructure) : ProjectStructure :=
  if !c.readOk then st else
  match c.pkg with
  | none => st
  | some pj => analyzePackageJsonDeps (pj.dependencies ++ pj.devDependencies) st

/-- Per-line work of `analyzePythonRequirements` (`trimSpace (toLowerStr
line)` is the rebound `line` of the source, `trimSpace p` its
`packageName`). -/
def analyzeRequirementsLine (st : ProjectStructure) (line : String) : ProjectStructure :=
  if trimSpace (toLowerStr line) = "" || strStartsWith (trimSpace (toLowerStr line)) "#" then st
  else
    match fieldsVer (trimSpace (toLowerStr line)) with
    | [] => st
    | p :: _ =>
        ["black", "ruff", "flake8", "mypy", "pytest", "isort"].foldl
          (fun st tool =>
            if strContains (trimSpace p) tool then addToolIfNotExists tool st else st)
          (if strContains (trimSpace p) "django" then addFrameworkIfNotExists "django" st
           else if strContains (trimSpace p) "fastapi" then addFrameworkIfNotExists "fastapi" st
           else if strContains (trimSpace p) "flask" then addFrameworkIfNotExists "flask" st
           else st)

/-- `analyzePythonRequirements` (`strings.Split(contentStr, "\n")`). -/
def analyzePythonRequirements (c : Content) (st : ProjectStructure) : ProjectStructure :=
  if !c.readOk then st else
  (splitOnChar (Char.ofNat 10) c.raw).foldl analyzeRequirementsLine st

/-- The PHP dev-tool table of `analyzeComposerJson`, in source listing
order; the Go map it embeds is iterated in unspecified order. -/
def composerToolsTable : List (String × String) :=
  [ ("phpunit/phpunit", "phpunit"),
    ("squizlabs/php_codesniffer", "phpcs"),
    ("friendsofphp/php-cs-fixer", "php-cs-fixer"),
    ("phpstan/phpstan", "phpstan"),
    ("psalm/phar", "psalm") ]

/-- `analyzeComposerJson`, with the tool-table iteration order explicit
(the source's merged `allDeps` key set is `cj.require ++ cj.requireDev`). -/
def analyzeComposerJson (ord : List (String × String)) (c : Content)
    (st : ProjectStructure) : ProjectStructure :=
  if !c.readOk then st else
  match c.comp with
  | none => st
  | some cj =>
      ord.foldl
        (fun st dt =>
          if (cj.require ++ cj.requireDev).contains dt.1 then addToolIfNotExists dt.2 st
          else st)
        (if (cj.require ++ cj.requireDev).contains "laravel/framework" then
          addFrameworkIfNotExists "laravel" st
         else st)

/-- The exact-filename dispatch of `analyzeFile`. -/
def analyzeFileByName (ord : List (String × String)) (fullPath filename : String)
    (c : Content) (st : ProjectStructure) : ProjectStructure :=
  match filename with
  | "go.mod" | "go.sum" =>
      addStructurePath "go" fullPath (addLanguageIfNotExists "go" st)
  | "package.json" =>
      analyzePackageJson c (addStructurePath "node" fullPath (addLanguageIfNotExists "node" st))
  | "package-lock.json" | "yarn.lock" | "pnpm-lock.yaml" =>
      addLanguageIfNotExists "node" st
  | "requirements.txt" | "setup.py" | "pyproject.toml" | "Pipfile" | "poetry.lock" =>
      let st := addStructurePath "python" fullPath (addLanguageIfNotExists "python" st)
      if filename = "requirements.txt" then analyzePythonRequirements c st else st
  | "Cargo.toml" | "Cargo.lock" =>
      addStructurePath "rust" fullPath (addLanguageIfNotExists "rust" st)
  | "composer.json" | "composer.lock" =>
      let st := addStructurePath "php" fullPath (addLanguageIfNotExists "php" st)
      if filename = "composer.json" then analyzeComposerJson ord c st else st
  | "pom.xml" | "build.gradle" | "gradle.properties" =>
      addStructurePath "java" fullPath (addLanguageIfNotExists "java" st)
  | "Dockerfile" | "docker-compose.yml" | "docker-compose.yaml" =>
      addStructurePath "docker" fullPath (addLanguageIfNotExists "docker" st)
  | _ => st

/-- The extension dispatch of `analyzeFile`. -/
def analyzeFileByExt (filename : String) (st : ProjectStructure) : ProjectStructure :=
  match toLowerStr (extOf filename) with
  | ".ts" | ".tsx" => addLanguageIfNotExists "typescript" st
  | ".js" | ".jsx" | ".mjs" =>
      if !hasLanguage "typescript" st then addLanguageIfNotExists "node" st else st
  | ".py" => addLanguageIfNotExists "python" st
  | ".go" => addLanguageIfNotExists "go" st
  | ".rs" => addLanguageIfNotExists "rust" st
  | ".php" => addLanguageIfNotExists "php" st
  | ".java" | ".kt" | ".scala" => addLanguageIfNotExists "java" st
  | _ => st

/-- `analyzeFile`: exact-filename dispatch followed by the extension
dispatch (both run, as in the source). -/
def analyzeFile (ord : List (String × String)) (fullPath filename : String)
    (c : Content) (st : ProjectStructure) : ProjectStructure :=
  analyzeFileByExt filename (analyzeFileByName ord fullPath filename c st)

mutual
/-- Number of nodes of a subtree: an executable bound on the number of
traversal iterations the subtree can cost. -/
def nodeCount : FsNode → Nat
  | .file _ => 1
  | .dir es => 1 + entriesCount es
termination_by structural n => n

/-- Total node count of an entry list's subtrees. -/
def entriesCount : FsEntries → Nat
  | .nil => 0
  | .cons _ child rest => nodeCount child + entriesCount rest
termination_by structural es => es
end

/-- The pending-visit list of `filepath.Walk`'s depth-first traversal: a
directory's entries, already in visit order, each carrying its full path,
its `FileInfo.Name()` base, and its subtree. -/
def entriesToTasks (dirPath : String) : FsEntries → List (String × String × FsNode)
  | .nil => []
  | .cons name child rest =>
      (joinPath dirPath name, name, child) :: entriesToTasks dirPath rest

/-- `filepath.Walk`'s traversal as a worklist loop: pop the next pending
node; a regular file is analyzed by the walk function (`analyzeFile`); a
directory whose base name matches the skip list is pruned
(`filepath.SkipDir`), otherwise its entries are pushed in visit order.
The `Nat` argument is recursion fuel only: every iteration consumes one
unit, and by `walkList_fuel_irrel` below any two fuel values at least
`tasksSize` of the worklist — the number of nodes the traversal could
ever reach — give identical results, so the fuel is immaterial to the
embedding. -/
def walkList (ord : List (String × String)) :
    Nat → List (String × String × FsNode) → ProjectStructure → ProjectStructure
  | _, [], st => st
  | 0, _ :: _, st => st
  | fuel + 1, (path, base, n) :: rest, st =>
      match n with
      | .file c => walkList ord fuel rest (analyzeFile ord path base c st)
      | .dir es =>
          if shouldSkipDirectory base then walkList ord fuel rest st
          else walkList ord fuel (entriesToTasks path es ++ rest) st

/-- Total size of the subtrees still pending on the worklist; an upper
bound on the number of traversal iterations left. -/
def tasksSize : List (String × String × FsNode) → Nat
  | [] => 0
  | (_, _, n) :: rest => nodeCount n + tasksSize rest

/-- `DetectProjectStructure`: walk from the root (whose `FileInfo.Name()`
is the base of the root path; `filepath.SkipDir` returned at the root makes
`filepath.Walk` return `nil`, so the fresh empty structure is returned with
no error), then the no-op `detectFrameworks` post-pass.  The fuel
`nodeCount root` bounds `tasksSize` of the initial worklist, so by
`walkList_fuel_irrel` the traversal never runs out. -/
def detectProjectStructure (ord : List (String × String)) (rootPath : String)
    (root : FsNode) : ProjectStructure :=
  walkList ord (nodeCount root) [(rootPath, pathBase rootPath, root)] emptyStructure

/-! ## Template generator (`internal/service/templates.go`).
The non-ASCII characters in the command names mirror the source bytes
exactly (the source file stores the emoji double-encoded).
`CommandTemplate.OutputRules` is a Go `map[string]string`; it is embedded
as the association list in the construction order of the source's literal,
and `formatHooksSection` takes the map iteration order as an explicit
reordering parameter `rord` because the rendering loop `for key, value :=
range cmd.OutputRules` observes it.  Unused fields that no generator sets
and no formatter prints (`Context`, `WorkingDirectory`, `RequiredFiles`)
are not embedded. -/

/-- `ToolTemplate`. -/
structure ToolTemplate where
  name : String
  checkCommand : String
  installCommand : String
  deriving DecidableEq, Repr

/-- `CommandTemplate` (empty `fixCommand` models the omitted field). -/
structure CommandTemplate where
  name : String
  command : String
  fixCommand : String
  outputRules : List (String × String)
  deriving DecidableEq, Repr

/-- `HookTemplate`. -/
structure HookTemplate where
  name : String
  description : String
  commands : List CommandTemplate
  deriving DecidableEq, Repr

/-- The formatter-failure message shared by every format-check command. -/
def fixMsg : String :=
  "Code formatting issues detected. Run './quality-gate --fix' to format."

/-- `getLanguageTools`. -/
def getLanguageTools (lang : Language) : List ToolTemplate :=
  match lang with
  | "go" =>
      [ { name := "Gofmt", checkCommand := "gofmt -h",
          installCommand := "# gofmt is included with Go installation" },
        { name := "Golangci-lint", checkCommand := "golangci-lint --version",
          installCommand := "go install github.com/golangci/golangci-lint/cmd/golangci-lint@latest" } ]
  | "python" =>
      [ { name := "Ruff (Python Linter/Formatter)", checkCommand := "ruff --version",
          installCommand := "pip install ruff" },
        { name := "Black (Python Formatter)", checkCommand := "black --version",
          installCommand := "pip install black" },
        { name := "MyPy (Type Checker)", checkCommand := "mypy --version",
          installCommand := "pip install mypy" } ]
  | "node" | "typescript" =>
      [ { name := "Prettier (Code Formatter)", checkCommand := "npx prettier --version",
          installCommand := "npm install --save-dev prettier" },
        { name := "ESLint (Linter)", checkCommand := "npx eslint --version",
          installCommand := "npm install --save-dev eslint" } ]
  | "rust" =>
      [ { name := "Rustfmt", checkCommand := "rustfmt --version",
          installCommand := "rustup component add rustfmt" },
        { name := "Clippy", checkCommand := "cargo clippy --version",
          installCommand := "rustup component add clippy" } ]
  | "php" =>
      [ { name := "PHP CS Fixer", checkCommand := "php-cs-fixer --version",
          installCommand := "composer global require friendsofphp/php-cs-fixer" },
        { name := "PHPStan", checkCommand := "phpstan --version",
          installCommand := "composer require --dev phpstan/phpstan" } ]
  | "java" =>
      [ { name := "Checkstyle", checkCommand := "checkstyle --version",
          installCommand := "# Install via package manager or Maven/Gradle plugin" } ]
  | _ => []

/-- `getFrameworkTools`. -/
def getFrameworkTools (framework : Language) : List ToolTemplate :=
  match framework with
  | "react" =>
      [ { name := "React DevTools Lint", checkCommand := "npx eslint-plugin-react --version",
          installCommand := "npm install --save-dev eslint-plugin-react" } ]
  | "django" =>
      [ { name := "Django Check", checkCommand := "python manage.py check --help",
          installCommand := "# Django check is built-in" } ]
  | "laravel" =>
      [ { name := "Laravel Pint", checkCommand := "pint --version",
          installCommand := "composer require laravel/pint --dev" } ]
  | _ => []

/-- One `if !seen[lower(name)]` append step of `generateTools`. -/
def addUnseenTools (acc : List ToolTemplate × List String) (new : List ToolTemplate) :
    List ToolTemplate × List String :=
  new.foldl
    (fun acc tool =>
      if acc.2.contains (toLowerStr tool.name) then acc
      else (acc.1 ++ [tool], acc.2 ++ [toLowerStr tool.name]))
    acc

/-- `generateTools`: Gitleaks always first, then language tools, then
framework tools, deduplicated by lower-cased name. -/
def generateTools (st : ProjectStructure) : List ToolTemplate :=
  let acc0 : List ToolTemplate × List String :=
    ([ { name := "Gitleaks", checkCommand := "gitleaks version",
         installCommand := "go install github.com/gitleaks/gitleaks/v8@latest" } ],
     ["gitleaks"])
  let acc1 := st.languages.foldl (fun a l => addUnseenTools a (getLanguageTools l)) acc0
  (st.frameworks.foldl (fun a f => addUnseenTools a (getFrameworkTools f)) acc1).1

/-- `generateSecurityHooks`. -/
def generateSecurityHooks : HookTemplate :=
  { name := "security", description := "Security checks for all projects",
    commands :=
      [ { name := "ðŸ”’ Secret Detection (Gitleaks)",
          command := "gitleaks detect --no-git --source . --verbose",
          fixCommand := "",
          outputRules :=
            [("on_failure_message",
              "âš ï¸  Secret leak detected! Review your code before committing.")] } ] }

/-- `generateGoHooks`. -/
def generateGoHooks : HookTemplate :=
  { name := "go-backend", description := "Quality checks for Go projects",
    commands :=
      [ { name := "ðŸŽ¨ Format Check (gofmt)",
          command := "gofmt -l .", fixCommand := "gofmt -w .",
          outputRules := [("show_on", "failure"), ("on_failure_message", fixMsg)] },
        { name := "ðŸ” Lint (golangci-lint)",
          command := "golangci-lint run ./...", fixCommand := "",
          outputRules := [("show_on", "failure")] },
        { name := "ðŸ§ª Tests",
          command := "go test ./...", fixCommand := "",
          outputRules := [("show_on", "always")] } ] }

/-- `generatePythonHooks`: the loop over `pythonDirs` assigns the first
element and breaks, so the target directory is always `"."`; the prepended
structure-map keys (a Go map whose iteration order is unspecified) are
never reached. -/
def generatePythonHooks (st : ProjectStructure) : HookTemplate :=
  let pythonDirs :=
    [".", "src", "app", "backend"] ++
      (st.structureMap.map Prod.fst).filter (fun d => strContains d "python")
  let targetDir := pythonDirs.headD "."
  { name := "python-backend", description := "Quality checks for Python projects",
    commands :=
      [ { name := "ðŸŽ¨ Format Check (Ruff)",
          command := "ruff format " ++ targetDir ++ " --check",
          fixCommand := "ruff format " ++ targetDir,
          outputRules := [("show_on", "failure"), ("on_failure_message", fixMsg)] },
        { name := "ðŸ” Lint (Ruff)",
          command := "ruff check " ++ targetDir, fixCommand := "",
          outputRules := [("show_on", "failure")] },
        { name := "ðŸ§ª Tests (pytest)",
          command := "pytest", fixCommand := "",
          outputRules := [("show_on", "always")] } ] }

/-- `generateNodeHooks`. -/
def generateNodeHooks (st : ProjectStructure) : HookTemplate :=
  let patterns :=
    ["'**/*.js'"] ++
      (if st.languages.contains "typescript" then ["'**/*.ts'", "'**/*.tsx'"] else []) ++
      (if st.frameworks.contains "react" then ["'**/*.jsx'"] else [])
  let patternStr := String.intercalate " " patterns
  { name := "typescript-frontend",
    description := "Quality checks for Node.js/TypeScript projects",
    commands :=
      [ { name := "ðŸŽ¨ Format Check (Prettier)",
          command := "npx prettier --check " ++ patternStr,
          fixCommand := "npx prettier --write " ++ patternStr,
          outputRules := [("show_on", "failure"), ("on_failure_message", fixMsg)] },
        { name := "ðŸ” Lint (ESLint)",
          command := "npx eslint " ++ patternStr, fixCommand := "",
          outputRules := [("show_on", "failure")] },
        { name := "ðŸ§ª Tests",
          command := "npm test", fixCommand := "",
          outputRules := [("show_on", "always")] } ] }

/-- `generateRustHooks`. -/
def generateRustHooks : HookTemplate :=
  { name := "rust-backend", description := "Quality checks for Rust projects",
    commands :=
      [ { name := "ðŸŽ¨ Format Check (rustfmt)",
          command := "cargo fmt -- --check", fixCommand := "cargo fmt",
          outputRules := [("show_on", "failure"), ("on_failure_message", fixMsg)] },
        { name := "ðŸ” Lint (Clippy)",
          command := "cargo clippy -- -D warnings", fixCommand := "",
          outputRules := [("show_on", "failure")] },
        { name := "ðŸ§ª Tests",
          command := "cargo test", fixCommand := "",
          outputRules := [("show_on", "always")] } ] }

/-- `generatePHPHooks` (its structure argument is unused in the source). -/
def generatePHPHooks : HookTemplate :=
  { name := "php-backend", description := "Quality checks for PHP projects",
    commands :=
      [ { name := "ðŸŽ¨ Format Check (PHP CS Fixer)",
          command := "php-cs-fixer fix --dry-run --diff", fixCommand := "php-cs-fixer fix",
          outputRules := [("show_on", "failure"), ("on_failure_message", fixMsg)] },
        { name := "ðŸ” Static Analysis (PHPStan)",
          command := "phpstan analyse", fixCommand := "",
          outputRules := [("show_on", "failure")] },
        { name := "ðŸ§ª Tests (PHPUnit)",
          command := "phpunit", fixCommand := "",
          outputRules := [("show_on", "always")] } ] }

/-- `generateReactHooks`. -/
def generateReactHooks : HookTemplate :=
  { name := "react-frontend",
    description := "Additional quality checks for React projects",
    commands :=
      [ { name := "âš›ï¸ React Lint",
          command := "npx eslint --ext .jsx,.tsx .", fixCommand := "",
          outputRules := [("show_on", "failure")] } ] }

/-- `generateDjangoHooks`. -/
def generateDjangoHooks : HookTemplate :=
  { name := "django-backend",
    description := "Additional quality checks for Django projects",
    commands :=
      [ { name := "ðŸ” Django Check",
          command := "python manage.py check", fixCommand := "",
          outputRules := [("show_on", "always")] },
        { name := "ðŸ—„ï¸ Migration Check",
          command := "python manage.py makemigrations --dry-run --check", fixCommand := "",
          outputRules := [("show_on", "failure")] } ] }

/-- `generateLaravelHooks`. -/
def generateLaravelHooks : HookTemplate :=
  { name := "laravel-backend",
    description := "Additional quality checks for Laravel projects",
    commands :=
      [ { name := "ðŸŽ¨ Format Check (Laravel Pint)",
          command := "pint --test", fixCommand := "pint",
          outputRules := [("show_on", "failure"), ("on_failure_message", fixMsg)] } ] }

/-- `generateLanguageHooks`. -/
def generateLanguageHooks (lang : Language) (st : ProjectStructure) : HookTemplate :=
  match lang with
  | "go" => generateGoHooks
  | "python" => generatePythonHooks st
  | "node" | "typescript" => generateNodeHooks st
  | "rust" => generateRustHooks
  | "php" => generatePHPHooks
  | _ => { name := "", description := "", commands := [] }

/-- `generateFrameworkHooks`. -/
def generateFrameworkHooks (framework : Language) : HookTemplate :=
  match framework with
  | "react" => generateReactHooks
  | "django" => generateDjangoHooks
  | "laravel" => generateLaravelHooks
  | _ => { name := "", description := "", commands := [] }

/-- `generateHooks`: security hook first, then per-language, then
per-framework hooks, each appended only when it has commands. -/
def generateHooks (st : ProjectStructure) : List HookTemplate :=
  (if generateSecurityHooks.commands.length > 0 then [generateSecurityHooks] else []) ++
  st.languages.flatMap
    (fun lang =>
      let h := generateLanguageHooks lang st
      if h.commands.length > 0 then [h] else []) ++
  st.frameworks.flatMap
    (fun fw =>
      let h := generateFrameworkHooks fw
      if h.commands.length > 0 then [h] else [])

/-- Double-quote character, used by the rendered yaml lines. -/
def dq : String := ⟨[Char.ofNat 34]⟩

/-- `formatToolsSection`. -/
def formatToolsSection (tools : List ToolTemplate) : String :=
  String.intercalate "\n"
    ("tools:" ::
      tools.flatMap (fun t =>
        [ "  - name: " ++ dq ++ t.name ++ dq,
          "    check_command: " ++ dq ++ t.checkCommand ++ dq,
          "    install_command: " ++ dq ++ t.installCommand ++ dq,
          "" ]))

/-- `formatHooksSection`; `rord` is the iteration order the Go runtime
chooses for the `for key, value := range cmd.OutputRules` loop. -/
def formatHooksSection (rord : List (String × String) → List (String × String))
    (hooks : List HookTemplate) : String :=
  String.intercalate "\n"
    ("hooks:" ::
      hooks.flatMap (fun h =>
        ["  " ++ h.name ++ ":"] ++
        (if h.description ≠ "" then ["    # " ++ h.description] else []) ++
        ["    pre-commit:"] ++
        h.commands.flatMap (fun cmd =>
          [ "      - name: " ++ dq ++ cmd.name ++ dq,
            "        command: " ++ dq ++ cmd.command ++ dq ] ++
          (if cmd.fixCommand ≠ "" then
            ["        fix_command: " ++ dq ++ cmd.fixCommand ++ dq] else []) ++
          (if cmd.outputRules.length > 0 then
            "        output_rules:" ::
              (rord cmd.outputRules).map
                (fun kv => "          " ++ kv.1 ++ ": " ++ dq ++ kv.2 ++ dq)
          else []) ++
          [""])))

/-- `GenerateTemplate`. -/
def generateTemplate (rord : List (String × String) → List (String × String))
    (st : ProjectStructure) : String :=
  let tools := generateTools st
  let hooks := generateHooks st
  String.intercalate "\n\n"
    ((if tools.length > 0 then [formatToolsSection tools] else []) ++
     (if hooks.length > 0 then [formatHooksSection rord hooks] else []))

/-! ## Concrete fixtures used by counterexamples and witnesses -/

/-- The empty configuration. -/
def emptyConfig : Config := { tools := [], hooks := [] }

/-- The tools-empty Warning of `validateTools`. -/
def toolsEmptyWarning : ValidationError :=
  { field := "tools", value := "empty",
    issue := "No tools configured",
    suggestion := "Add at least one tool configuration for quality checks",
    severity := .warning }

/-- The hooks-empty Warning of `validateHooks`. -/
def hooksEmptyWarning : ValidationError :=
  { field := "hooks", value := "empty",
    issue := "No hooks configured",
    suggestion := "Add at least one hook configuration (pre-commit, pre-push, etc.)",
    severity := .warning }

/-- The missing-security-hooks Warning of `validateEssentialHooks`. -/
def securityMissingWarning : ValidationError :=
  { field := "hooks", value := "missing security",
    issue := "No security hooks configured",
    suggestion := "Consider adding a security hook group with tools like gitleaks for secret detection",
    severity := .warning }

/-- A configuration whose only hook has an empty command string. -/
def emptyCommandConfig : Config :=
  { tools := [],
    hooks := [("g", [("pre-commit",
      [{ name := "n", command := "", fixCommand := "",
         outputRules := { showOn := "", onFailureMessage := "" } }])])] }

/-- A configuration whose only hook's failure message has a closing
delimiter but no opening one: `\x7d\x7d broken`. -/
def closeOnlyConfig : Config :=
  { tools := [],
    hooks := [("g", [("pre-commit",
      [{ name := "n", command := "echo hi", fixCommand := "",
         outputRules := { showOn := "failure",
                          onFailureMessage := "\x7d\x7d broken" } }])])] }

/-- A shell oracle over a unit world: every command echoes, and the command
`bad` fails with error message `boom`. -/
def unitRun : Unit → String → (String × Option String) × Unit :=
  fun _ c => ((c ++ "!", if c = "bad" then some "boom" else none), ())

/-- Tools whose first entry has a failing check and failing install. -/
def toolsFixture : List Tool :=
  [ { name := "T", checkCommand := "bad", installCommand := "bad" },
    { name := "U", checkCommand := "u-check", installCommand := "u-inst" } ]

/-- Hooks: one without a fix command, one whose fix command fails, one
whose fix command would succeed but must never run. -/
def hooksFixture : List Hook :=
  [ { name := "h0", command := "c0", fixCommand := "",
      outputRules := { showOn := "", onFailureMessage := "" } },
    { name := "h1", command := "c1", fixCommand := "bad",
      outputRules := { showOn := "", onFailureMessage := "" } },
    { name := "h2", command := "c2", fixCommand := "fix2",
      outputRules := { showOn := "", onFailureMessage := "" } } ]

/-- A composer.json manifest declaring two recognized PHP dev tools. -/
def composerTree : FsNode :=
  .dir (.cons "composer.json"
    (.file { readOk := true, raw := "", pkg := none,
             comp := some { require := ["phpstan/phpstan", "phpunit/phpunit"],
                            requireDev := [] } })
    .nil)

/-- A one-file Go tree (`go.mod` at the top level). -/
def goTree : FsEntries :=
  .cons "go.mod" (.file plainContent) .nil

/-- A project structure recording only the Go language. -/
def goOnlyStruct : ProjectStructure :=
  { languages := ["go"], frameworks := [], tools := [], structureMap := [] }

/-- Agreement of two scan states up to the order of the tools sequence:
equal languages, frameworks and structure map, and the same set of tools.
This is the invariant preserved when the composer tool-table iteration
order varies. -/
def scanAgrees (st1 st2 : ProjectStructure) : Prop :=
  st1.languages = st2.languages ∧ st1.frameworks = st2.frameworks ∧
  st1.structureMap = st2.structureMap ∧ ∀ x : String, x ∈ st1.tools ↔ x ∈ st2.tools

/-! ## Shared lemmas -/

/-- Membership in a conditional single-finding emission. -/
theorem mem_emitIf {e x : ValidationError} {b : Bool} (h : e ∈ emitIf b x) : e = x := by
  unfold emitIf at h
  split at h <;> simp_all

/-! ## Claim C2 -/

/-- C2, counterexample: for the empty configuration the claim asserts that
`Validate` returns invalid with no Critical finding; but when the
configuration file is accessible the result is *valid* (the findings are
Warnings only, and Warnings never invalidate), and when the file is not
accessible the findings do contain a Critical.  Either way the claimed
conjunction fails. -/
theorem validate_empty_config_claimed_invalid_false :
    (validate emptyConfig (.ok 420) (fun _ => false)).valid = true ∧
    ((validate emptyConfig .statError (fun _ => false)).errors.any
      (fun e => e.severity = .critical)) = true := by
  constructor <;> decide

/-- C2, amended: on an empty tools list and empty hooks map (with the
configuration file accessible and readable), `Validate` returns *valid*,
and its findings are exactly one tools-empty Warning, one hooks-empty
Warning and one missing-security-hooks Warning — no Error or Critical. -/
theorem validate_empty_config_warnings_only (perm : Nat) (look : LookPath)
    (h : perm &&& 0o044 ≠ 0) :
    validate emptyConfig (.ok perm) look =
      { valid := true,
        errors := [toolsEmptyWarning, hooksEmptyWarning, securityMissingWarning] } := by
  simp [validate, validateTools, validateHooks, validateToolReferences,
        validateCommonIssues, validateDuplicateToolNames, validateEssentialHooks,
        validateFileSystem, emitIf, hasCriticalOrErrorSeverity, h, emptyConfig,
        toolsEmptyWarning, hooksEmptyWarning, securityMissingWarning]

/-- C2, witness: the amended statement at permission bits `0o644`. -/
theorem validate_empty_config_warnings_only_witness :
    (420 &&& 0o044 ≠ 0) ∧
    validate emptyConfig (.ok 420) (fun _ => false) =
      { valid := true,
        errors := [toolsEmptyWarning, hooksEmptyWarning, securityMissingWarning] } :=
  ⟨by decide, validate_empty_config_warnings_only 420 (fun _ => false) (by decide)⟩

/-! ## Claim C3 -/

/-- Every typo-heuristic finding is a Warning. -/
theorem sev_validateToolNames {c p : String} :
    ∀ e ∈ validateToolNames c p, e.severity = .warning := by
  intro e he
  simp only [validateToolNames, List.mem_flatMap] at he
  obtain ⟨tc, -, he⟩ := he
  rw [mem_emitIf he]

/-- No syntax-check finding is Critical. -/
theorem sev_validateCommandSyntax {c p : String} :
    ∀ e ∈ validateCommandSyntax c p, e.severity ≠ .critical := by
  intro e he
  simp only [validateCommandSyntax, List.mem_append] at he
  rcases he with (he | he) | he
  · rw [mem_emitIf he]; simp
  · rw [mem_emitIf he]; simp
  · rw [sev_validateToolNames e he]; decide

/-- The only Critical `validateCommand` can emit is the dangerous-command
finding. -/
theorem crit_validateCommand {c p : String} :
    ∀ e ∈ validateCommand c p, e.severity = .critical →
      e.issue = "Potentially dangerous command detected" := by
  intro e he hc
  simp only [validateCommand, List.mem_append] at he
  rcases he with he | he
  · rw [mem_emitIf he]; rfl
  · exact absurd hc (sev_validateCommandSyntax e he)

/-- The template check emits only Warnings. -/
theorem sev_validateMessageTemplate {m p : String} :
    ∀ e ∈ validateMessageTemplate m p, e.severity = .warning := by
  intro e he
  rw [mem_emitIf he]

/-- No output-rule finding is Critical. -/
theorem sev_validateOutputRules {r : OutputRules} {p : String} :
    ∀ e ∈ validateOutputRules r p, e.severity ≠ .critical := by
  intro e he
  simp only [validateOutputRules, List.mem_append] at he
  rcases he with he | he
  · rw [mem_emitIf he]; simp
  · split at he
    · rw [sev_validateMessageTemplate e he]; decide
    · simp at he

/-- Critical findings of one hook command entry: dangerous command or
empty command. -/
theorem crit_validateOneHookCommand {i : Nat} {cmd : Hook} {p : String} :
    ∀ e ∈ validateOneHookCommand i cmd p, e.severity = .critical →
      e.issue = "Potentially dangerous command detected" ∨ e.issue = "Command is empty" := by
  intro e he hc
  simp only [validateOneHookCommand, List.mem_append] at he
  rcases he with ((he | he) | he) | he
  · rw [mem_emitIf he] at hc; simp at hc
  · split at he
    · simp at he; subst he; right; rfl
    · left; exact crit_validateCommand e he hc
  · split at he
    · left; exact crit_validateCommand e he hc
    · simp at he
  · exact absurd hc (sev_validateOutputRules e he)

/-- Critical findings of `validateCommands`. -/
theorem crit_validateCommands {cmds : List Hook} {p : String} :
    ∀ e ∈ validateCommands cmds p, e.severity = .critical →
      e.issue = "Potentially dangerous command detected" ∨ e.issue = "Command is empty" := by
  intro e he hc
  unfold validateCommands at he
  split at he
  · simp at he; subst he; simp at hc
  · simp only [List.mem_flatMap] at he
    obtain ⟨q, -, he⟩ := he
    exact crit_validateOneHookCommand e he hc

/-- Availability findings are Warnings. -/
theorem sev_validateToolAvailability {t : Tool} {p : String} {look : LookPath} :
    ∀ e ∈ validateToolAvailability t p look, e.severity = .warning := by
  intro e he
  unfold validateToolAvailability at he
  split at he
  · simp at he
  · split at he
    · simp at he
    · rw [mem_emitIf he]

/-- The only Critical of one tool entry is the dangerous-command finding. -/
theorem crit_validateOneTool {i : Nat} {t : Tool} {look : LookPath} :
    ∀ e ∈ validateOneTool i t look, e.severity = .critical →
      e.issue = "Potentially dangerous command detected" := by
  intro e he hc
  simp only [validateOneTool, List.mem_append] at he
  rcases he with ((he | he) | he) | he
  · rw [mem_emitIf he] at hc; simp at hc
  · split at he
    · simp at he; subst he; simp at hc
    · exact crit_validateCommand e he hc
  · split at he
    · simp at he; subst he; simp at hc
    · exact crit_validateCommand e he hc
  · rw [sev_validateToolAvailability e he] at hc; cases hc

/-- Critical findings of `validateTools`. -/
theorem crit_validateTools {cfg : Config} {look : LookPath} :
    ∀ e ∈ validateTools cfg look, e.severity = .critical →
      e.issue = "Potentially dangerous command detected" := by
  intro e he hc
  unfold validateTools at he
  split at he
  · simp at he; subst he; simp at hc
  · simp only [List.mem_flatMap] at he
    obtain ⟨q, -, he⟩ := he
    exact crit_validateOneTool e he hc

/-- Critical findings of one hook group. -/
theorem crit_validateOneHookGroup {n : String} {g : HookGroup} :
    ∀ e ∈ validateOneHookGroup n g, e.severity = .critical →
      e.issue = "Potentially dangerous command detected" ∨ e.issue = "Command is empty" := by
  intro e he hc
  simp only [validateOneHookGroup, List.mem_append] at he
  rcases he with (he | he) | he
  · rw [mem_emitIf he] at hc; simp at hc
  · simp only [List.mem_flatMap] at he
    obtain ⟨q, -, he⟩ := he
    split at he
    · exact crit_validateCommands e he hc
    · simp at he
  · rw [mem_emitIf he] at hc; simp at hc

/-- Critical findings of `validateHooks`. -/
theorem crit_validateHooks {cfg : Config} :
    ∀ e ∈ validateHooks cfg, e.severity = .critical →
      e.issue = "Potentially dangerous command detected" ∨ e.issue = "Command is empty" := by
  intro e he hc
  unfold validateHooks at he
  split at he
  · simp at he; subst he; simp at hc
  · simp only [List.mem_flatMap] at he
    obtain ⟨q, -, he⟩ := he
    exact crit_validateOneHookGroup e he hc

/-- Cross-reference findings are Warnings. -/
theorem sev_checkCommandToolReferences {cmds : List Hook} {avail : List String} {p : String} :
    ∀ e ∈ checkCommandToolReferences cmds avail p, e.severity = .warning := by
  intro e he
  simp only [checkCommandToolReferences, List.mem_flatMap] at he
  obtain ⟨q, -, he⟩ := he
  split at he
  · simp at he
  · rw [mem_emitIf he]

/-- All of `validateToolReferences` is Warnings. -/
theorem sev_validateToolReferences {cfg : Config} :
    ∀ e ∈ validateToolReferences cfg, e.severity = .warning := by
  intro e he
  simp only [validateToolReferences, List.mem_flatMap] at he
  obtain ⟨g, -, hg⟩ := he
  obtain ⟨q, -, he⟩ := hg
  split at he
  · exact sev_checkCommandToolReferences e he
  · simp at he

/-- Findings accumulated by the duplicate-name scan are Errors. -/
theorem sev_dupFold (l : List (Nat × Tool)) :
    ∀ acc : List ValidationError × List (String × Nat),
      ∀ e ∈ (l.foldl dupStep acc).1, e ∈ acc.1 ∨ e.severity = .error := by
  induction l with
  | nil => intro acc e he; exact Or.inl he
  | cons p t ih =>
      intro acc e he
      rcases ih (dupStep acc p) e he with h | h
      · unfold dupStep at h
        split at h
        · simp only [List.mem_append] at h
          rcases h with h | h
          · exact Or.inl h
          · simp at h; subst h; right; rfl
        · exact Or.inl h
      · exact Or.inr h

/-- `validateDuplicateToolNames` emits only Errors. -/
theorem sev_validateDuplicateToolNames {cfg : Config} :
    ∀ e ∈ validateDuplicateToolNames cfg, e.severity = .error := by
  intro e he
  rcases sev_dupFold cfg.tools.enum ([], []) e he with h | h
  · simp at h
  · exact h

/-- The only Critical of the filesystem check reports the inaccessible
configuration file. -/
theorem crit_validateFileSystem {fs : FsState} :
    ∀ e ∈ validateFileSystem fs, e.severity = .critical →
      e.issue = "Cannot access quality.yml file" := by
  intro e he hc
  unfold validateFileSystem at he
  split at he
  · simp at he; subst he; rfl
  · rw [mem_emitIf he] at hc; simp at hc

/-- C3, amended: every Critical finding `Validate` emits is a
dangerous-command match, the inaccessible configuration file, or an empty
hook command.  (The claim omitted the third kind: the empty-command check
at the hook level is Critical in the source.) -/
theorem validate_critical_findings_classified (cfg : Config) (fs : FsState)
    (look : LookPath) :
    ∀ e ∈ (validate cfg fs look).errors, e.severity = .critical →
      e.issue = "Potentially dangerous command detected" ∨
      e.issue = "Cannot access quality.yml file" ∨
      e.issue = "Command is empty" := by
  intro e he hc
  simp only [validate, validateCommonIssues, List.mem_append] at he
  rcases he with ((he | he) | he) | (he | he) | he
  · exact Or.inl (crit_validateTools e he hc)
  · rcases crit_validateHooks e he hc with h | h
    · exact Or.inl h
    · exact Or.inr (Or.inr h)
  · rw [sev_validateToolReferences e he] at hc; cases hc
  · rw [sev_validateDuplicateToolNames e he] at hc; cases hc
  · rw [mem_emitIf he] at hc; simp at hc
  · exact Or.inr (Or.inl (crit_validateFileSystem e he hc))

/-- C3, counterexample: with an accessible configuration file and no
dangerous command anywhere, `Validate` still emits a Critical — the
empty-hook-command finding — which is neither of the two kinds the claim
allows. -/
theorem validate_critical_not_only_two_kinds :
    ((validate emptyCommandConfig (.ok 420) (fun _ => false)).errors.filter
        (fun e => decide (e.severity = .critical))).map (fun e => e.issue)
      = ["Command is empty"] ∧
    ("Command is empty" ≠ "Potentially dangerous command detected") ∧
    ("Command is empty" ≠ "Cannot access quality.yml file") := by
  refine ⟨by decide, by decide, by decide⟩

/-- C3, witness: the amended classification applied to the Critical finding
of `emptyCommandConfig`. -/
theorem validate_critical_findings_classified_witness :
    ({ field := "hooks.g.pre-commit[0].command", value := "",
       issue := "Command is empty", suggestion := "Provide the command to execute",
       severity := .critical } : ValidationError)
        ∈ (validate emptyCommandConfig (.ok 420) (fun _ => false)).errors ∧
    (ValidationError.severity
      { field := "hooks.g.pre-commit[0].command", value := "",
        issue := "Command is empty", suggestion := "Provide the command to execute",
        severity := .critical } = .critical) ∧
    ("Command is empty" = "Potentially dangerous command detected" ∨
     "Command is empty" = "Cannot access quality.yml file" ∨
     "Command is empty" = "Command is empty") :=
  ⟨by decide, rfl,
   validate_critical_findings_classified emptyCommandConfig (.ok 420) (fun _ => false)
     { field := "hooks.g.pre-commit[0].command", value := "",
       issue := "Command is empty", suggestion := "Provide the command to execute",
       severity := .critical } (by decide) rfl⟩

/-! ## Claim C6 -/

/-- C6: when a command matches at least one entry of the destructive
pattern table, `validateCommand` emits exactly one Critical finding — the
dangerous-command finding — however many entries match (the source loop
breaks after the first match, and no other check in `validateCommand` is
Critical). -/
theorem validateCommand_one_critical_on_match (cmd p : String)
    (h : dangerousPatterns.any (fun r => matchString r cmd) = true) :
    (validateCommand cmd p).filter (fun e => decide (e.severity = .critical)) =
      [dangerousFinding cmd p] := by
  have h2 : (validateCommandSyntax cmd p).filter
      (fun e => decide (e.severity = .critical)) = [] := by
    rw [List.filter_eq_nil_iff]
    intro e he
    simpa using sev_validateCommandSyntax e he
  simp [validateCommand, List.filter_append, emitIf, h, h2, dangerousFinding]

/-- C6, witness: `sudo rm -rf /` matches two distinct table entries
(root-recursive deletion and privileged deletion) and still yields exactly
one Critical finding. -/
theorem validateCommand_one_critical_on_match_witness :
    matchString (dangerousPatterns.get ⟨0, by decide⟩) "sudo rm -rf /" = true ∧
    matchString (dangerousPatterns.get ⟨2, by decide⟩) "sudo rm -rf /" = true ∧
    (validateCommand "sudo rm -rf /" "tools[0].check_command").filter
        (fun e => decide (e.severity = .critical)) =
      [dangerousFinding "sudo rm -rf /" "tools[0].check_command"] :=
  ⟨by decide, by decide,
   validateCommand_one_critical_on_match "sudo rm -rf /" "tools[0].check_command" (by decide)⟩

/-! ## Claim C7 -/

/-- A name absent from every binding is not found. -/
theorem lookupSeen_none_of {seen : List (String × Nat)} {n : String}
    (h : ∀ q ∈ seen, q.1 ≠ n) : lookupSeen seen n = none := by
  induction seen with
  | nil => rfl
  | cons q t ih =>
      unfold lookupSeen
      rw [if_neg (h q (List.mem_cons_self q t))]
      exact ih (fun r hr => h r (List.mem_cons_of_mem q hr))

/-- One lookup step. -/
theorem lookupSeen_cons (q : String × Nat) (rest : List (String × Nat)) (n : String) :
    lookupSeen (q :: rest) n = if q.1 = n then some q.2 else lookupSeen rest n := rfl

/-- Lookup skips a block of bindings for other names. -/
theorem lookupSeen_append {l1 l2 : List (String × Nat)} {n : String}
    (h : ∀ q ∈ l1, q.1 ≠ n) : lookupSeen (l1 ++ l2) n = lookupSeen l2 n := by
  induction l1 with
  | nil => rfl
  | cons q t ih =>
      rw [List.cons_append, lookupSeen_cons, if_neg (h q (List.mem_cons_self q t))]
      exact ih (fun r hr => h r (List.mem_cons_of_mem q hr))

/-- The names of an index-annotated segment. -/
theorem enumFrom_map_names (n : Nat) (A : List Tool) :
    (List.enumFrom n A).map (fun p => p.2.name) = A.map Tool.name := by
  conv_rhs => rw [← List.enumFrom_map_snd n A]
  rw [List.map_map]
  rfl

/-- Every key recorded from an annotated segment is one of its names. -/
theorem seen_key_mem {l : List (Nat × Tool)} {q : String × Nat}
    (h : q ∈ (l.map (fun p => (p.2.name, p.1))).reverse) :
    q.1 ∈ l.map (fun p => p.2.name) := by
  rw [List.mem_reverse] at h
  obtain ⟨p, hp, rfl⟩ := List.mem_map.mp h
  exact List.mem_map_of_mem _ hp

/-- The tool of an index-annotated entry belongs to the segment. -/
theorem snd_mem_of_mem_enumFrom {n : Nat} {B : List Tool} {p : Nat × Tool}
    (h : p ∈ List.enumFrom n B) : p.2 ∈ B := by
  have h2 := List.mem_map_of_mem Prod.snd h
  rwa [List.enumFrom_map_snd] at h2

/-- Scanning a segment whose names collide neither with the seen map nor
with each other emits nothing and records each (name, index). -/
theorem dupFold_no_hit (l : List (Nat × Tool)) :
    ∀ errs seen, (∀ p ∈ l, ∀ q ∈ seen, q.1 ≠ p.2.name) →
      (l.map (fun p => p.2.name)).Nodup →
      l.foldl dupStep (errs, seen) =
        (errs, (l.map (fun p => (p.2.name, p.1))).reverse ++ seen) := by
  induction l with
  | nil => intro errs seen _ _; simp
  | cons p t ih =>
      intro errs seen hfresh hnd
      have hstep : dupStep (errs, seen) p = (errs, (p.2.name, p.1) :: seen) := by
        unfold dupStep
        rw [lookupSeen_none_of (hfresh p (List.mem_cons_self p t))]
      rw [List.map_cons, List.nodup_cons] at hnd
      rw [List.foldl_cons, hstep,
        ih errs ((p.2.name, p.1) :: seen)
          (by
            intro r hr q hq
            rcases List.mem_cons.mp hq with rfl | hq
            · intro hEq
              change p.2.name = r.2.name at hEq
              exact hnd.1 (hEq ▸ List.mem_map_of_mem (fun p => p.2.name) hr)
            · exact hfresh r (List.mem_cons_of_mem p hr) q hq)
          hnd.2]
      simp

/-- C7: a configuration whose tools list contains exactly two occurrences
of one name (all other names distinct) makes `validateDuplicateToolNames`
emit exactly one duplicate-name Error, attached to the later occurrence and
citing the index of the earlier one. -/
theorem validateDuplicateToolNames_single_pair (A B C : List Tool) (t tdup : Tool)
    (hooks : HooksMap)
    (hname : tdup.name = t.name)
    (hA : ∀ x ∈ A, x.name ≠ t.name)
    (hB : ∀ x ∈ B, x.name ≠ t.name)
    (hC : ∀ x ∈ C, x.name ≠ t.name)
    (hndA : (A.map Tool.name).Nodup)
    (hndB : (B.map Tool.name).Nodup)
    (hndC : (C.map Tool.name).Nodup)
    (hAB : ∀ x ∈ A, ∀ y ∈ B, x.name ≠ y.name)
    (hAC : ∀ x ∈ A, ∀ y ∈ C, x.name ≠ y.name)
    (hBC : ∀ x ∈ B, ∀ y ∈ C, x.name ≠ y.name) :
    validateDuplicateToolNames
        { tools := A ++ t :: (B ++ tdup :: C), hooks := hooks } =
      [{ field := "tools[" ++ Nat.repr (A.length + 1 + B.length) ++ "].name",
         value := tdup.name,
         issue := "Duplicate tool name (also defined at tools["
           ++ Nat.repr A.length ++ "])",
         suggestion := "Use unique names for each tool or merge configurations",
         severity := .error }] := by
  unfold validateDuplicateToolNames
  have hsplit :
      (A ++ t :: (B ++ tdup :: C)).enum =
        A.enum ++ ((A.length, t) ::
          (List.enumFrom (A.length + 1) B ++ ((A.length + 1 + B.length, tdup) ::
            List.enumFrom (A.length + 1 + B.length + 1) C))) := by
    rw [List.enum_append, List.enumFrom_cons, List.enumFrom_append, List.enumFrom_cons]
  simp only [hsplit]
  rw [List.foldl_append, List.foldl_cons,
    dupFold_no_hit A.enum [] [] (by simp)
      (by rw [List.enum_eq_enumFrom, enumFrom_map_names]; exact hndA),
    List.append_nil]
  set seenA := (A.enum.map (fun p => (p.2.name, p.1))).reverse with hseenA
  have hkeysA : ∀ q ∈ seenA, q.1 ∈ A.map Tool.name := by
    intro q hq
    have h2 := seen_key_mem hq
    rwa [List.enum_eq_enumFrom, enumFrom_map_names] at h2
  have hstepT : dupStep ([], seenA) (A.length, t) = ([], (t.name, A.length) :: seenA) := by
    unfold dupStep
    rw [lookupSeen_none_of (by
      intro q hq
      obtain ⟨x, hx, hxe⟩ := List.mem_map.mp (hkeysA q hq)
      rw [← hxe]
      exact hA x hx)]
  rw [hstepT, List.foldl_append,
    dupFold_no_hit (List.enumFrom (A.length + 1) B) [] ((t.name, A.length) :: seenA)
      (by
        intro p hp q hq
        have hpB : p.2 ∈ B := snd_mem_of_mem_enumFrom hp
        rcases List.mem_cons.mp hq with rfl | hq
        · exact Ne.symm (hB p.2 hpB)
        · obtain ⟨x, hx, hxe⟩ := List.mem_map.mp (hkeysA q hq)
          rw [← hxe]
          exact hAB x hx p.2 hpB)
      (by rw [enumFrom_map_names]; exact hndB)]
  set seenB := ((List.enumFrom (A.length + 1) B).map (fun p => (p.2.name, p.1))).reverse
    with hseenB
  have hkeysB : ∀ q ∈ seenB, q.1 ∈ B.map Tool.name := by
    intro q hq
    have h2 := seen_key_mem hq
    rwa [enumFrom_map_names] at h2
  rw [List.foldl_cons]
  have hstepT2 :
      dupStep ([], seenB ++ ((t.name, A.length) :: seenA)) (A.length + 1 + B.length, tdup) =
        ([{ field := "tools[" ++ Nat.repr (A.length + 1 + B.length) ++ "].name",
            value := tdup.name,
            issue := "Duplicate tool name (also defined at tools["
              ++ Nat.repr A.length ++ "])",
            suggestion := "Use unique names for each tool or merge configurations",
            severity := .error }],
         (tdup.name, A.length + 1 + B.length) :: (seenB ++ ((t.name, A.length) :: seenA))) := by
    unfold dupStep
    rw [lookupSeen_append (by
        intro q hq
        obtain ⟨x, hx, hxe⟩ := List.mem_map.mp (hkeysB q hq)
        rw [← hxe, hname]
        exact hB x hx)]
    unfold lookupSeen
    rw [if_pos hname.symm]
    simp
  rw [hstepT2,
    dupFold_no_hit (List.enumFrom (A.length + 1 + B.length + 1) C) _ _
      (by
        intro p hp q hq
        have hpC : p.2 ∈ C := snd_mem_of_mem_enumFrom hp
        rcases List.mem_cons.mp hq with rfl | hq
        · rw [hname]
          exact Ne.symm (hC p.2 hpC)
        · rcases List.mem_append.mp hq with hq | hq
          · obtain ⟨x, hx, hxe⟩ := List.mem_map.mp (hkeysB q hq)
            rw [← hxe]
            exact hBC x hx p.2 hpC
          · rcases List.mem_cons.mp hq with rfl | hq
            · exact Ne.symm (hC p.2 hpC)
            · obtain ⟨x, hx, hxe⟩ := List.mem_map.mp (hkeysA q hq)
              rw [← hxe]
              exact hAC x hx p.2 hpC)
      (by rw [enumFrom_map_names]; exact hndC)]

/-- C7, witness: tools `dup, other, dup, third` yield one Error at index 2
citing index 0. -/
theorem validateDuplicateToolNames_single_pair_witness :
    validateDuplicateToolNames
        { tools := [{ name := "dup", checkCommand := "a", installCommand := "b" },
                    { name := "other", checkCommand := "c", installCommand := "d" },
                    { name := "dup", checkCommand := "e", installCommand := "f" },
                    { name := "third", checkCommand := "g", installCommand := "h" }],
          hooks := [] } =
      [{ field := "tools[" ++ Nat.repr 2 ++ "].name",
         value := "dup",
         issue := "Duplicate tool name (also defined at tools[" ++ Nat.repr 0 ++ "])",
         suggestion := "Use unique names for each tool or merge configurations",
         severity := .error }] :=
  validateDuplicateToolNames_single_pair []
    [{ name := "other", checkCommand := "c", installCommand := "d" }]
    [{ name := "third", checkCommand := "g", installCommand := "h" }]
    { name := "dup", checkCommand := "a", installCommand := "b" }
    { name := "dup", checkCommand := "e", installCommand := "f" }
    [] rfl (by decide) (by decide) (by decide) (by decide) (by decide) (by decide)
    (by decide) (by decide) (by decide)

/-! ## Claim C8 -/

/-- C8, counterexample: the message `\x7d\x7d broken` has unpaired
delimiter counts (zero `\x7b\x7b` against one `\x7d\x7d`), yet `Validate`
emits no finding at all for that message — the source only warns when
`\x7b\x7b` is present and `\x7d\x7d` absent. -/
theorem validate_close_only_message_no_warning :
    strCount "\x7d\x7d broken" "\x7b\x7b" = 0 ∧
    strCount "\x7d\x7d broken" "\x7d\x7d" = 1 ∧
    ((validate closeOnlyConfig (.ok 420) (fun _ => false)).errors.all
      (fun e => decide (e.value ≠ "\x7d\x7d broken"))) = true := by
  refine ⟨by decide, by decide, by decide⟩

/-- The `errors` list of `Validate`, spelled out. -/
theorem validate_errors_eq (cfg : Config) (fs : FsState) (look : LookPath) :
    (validate cfg fs look).errors =
      validateTools cfg look ++ validateHooks cfg ++ validateToolReferences cfg ++
        validateCommonIssues cfg fs := rfl

/-- C8, amended: `Validate` emits the unclosed-template Warning exactly for
a nonempty failure message that contains `\x7b\x7b` and does not contain
`\x7d\x7d` anywhere; other delimiter imbalances produce no finding. -/
theorem validate_unclosed_template_warning
    (cfg : Config) (fs : FsState) (look : LookPath)
    (gname : String) (group : HookGroup) (htype : String) (cmds : List Hook)
    (i : Nat) (cmd : Hook)
    (hg : (gname, group) ∈ cfg.hooks)
    (hh : (htype, cmds) ∈ group)
    (hc : cmds[i]? = some cmd)
    (hmsg : cmd.outputRules.onFailureMessage ≠ "")
    (hopen : strContains cmd.outputRules.onFailureMessage "\x7b\x7b" = true)
    (hclose : strContains cmd.outputRules.onFailureMessage "\x7d\x7d" = false) :
    ({ field := "hooks." ++ gname ++ "." ++ htype ++ "[" ++ Nat.repr i ++ "]"
         ++ ".output_rules" ++ ".on_failure_message",
       value := cmd.outputRules.onFailureMessage,
       issue := "Unclosed template variable in message",
       suggestion := "Ensure all \x7b\x7b variables \x7d\x7d are properly closed",
       severity := .warning } : ValidationError) ∈ (validate cfg fs look).errors := by
  have hlen : i < cmds.length := by
    rcases List.getElem?_eq_some.mp hc with ⟨h, -⟩
    exact h
  have hne : cfg.hooks ≠ [] := by
    intro h
    rw [h] at hg
    cases hg
  rw [validate_errors_eq]
  refine List.mem_append.mpr (Or.inl (List.mem_append.mpr (Or.inl
    (List.mem_append.mpr (Or.inr ?_)))))
  unfold validateHooks
  rw [if_neg hne]
  refine List.mem_flatMap.mpr ⟨(gname, group), hg, ?_⟩
  unfold validateOneHookGroup
  refine List.mem_append.mpr (Or.inl (List.mem_append.mpr (Or.inr ?_)))
  refine List.mem_flatMap.mpr ⟨(htype, cmds), hh, ?_⟩
  show _ ∈ if cmds.length > 0 then
    validateCommands cmds ("hooks." ++ gname ++ "." ++ htype) else []
  rw [if_pos (Nat.lt_of_lt_of_le (Nat.zero_lt_succ i) hlen)]
  unfold validateCommands
  rw [if_neg (by intro h; rw [h] at hlen; cases hlen)]
  refine List.mem_flatMap.mpr ⟨(i, cmd), ?_, ?_⟩
  · rw [List.mem_enum_iff_getElem?]
    exact hc
  · show _ ∈ validateOneHookCommand i cmd ("hooks." ++ gname ++ "." ++ htype)
    unfold validateOneHookCommand
    refine List.mem_append.mpr (Or.inr ?_)
    unfold validateOutputRules
    refine List.mem_append.mpr (Or.inr ?_)
    rw [if_pos hmsg]
    unfold validateMessageTemplate
    rw [hopen, hclose]
    simp [emitIf]

/-- C8, witness: a concrete hook whose failure message `\x7b\x7b var` opens
a template delimiter and never closes it receives the Warning. -/
theorem validate_unclosed_template_warning_witness :
    ({ field := "hooks." ++ "g" ++ "." ++ "pre-commit" ++ "[" ++ Nat.repr 0 ++ "]"
         ++ ".output_rules" ++ ".on_failure_message",
       value := "\x7b\x7b var",
       issue := "Unclosed template variable in message",
       suggestion := "Ensure all \x7b\x7b variables \x7d\x7d are properly closed",
       severity := .warning } : ValidationError) ∈
      (validate
        { tools := [],
          hooks := [("g", [("pre-commit",
            [{ name := "n", command := "echo hi", fixCommand := "",
               outputRules := { showOn := "failure",
                                onFailureMessage := "\x7b\x7b var" } }])])] }
        (.ok 420) (fun _ => false)).errors :=
  validate_unclosed_template_warning _ (.ok 420) (fun _ => false) "g" _ "pre-commit" _ 0 _
    (List.mem_cons_self _ _) (List.mem_cons_self _ _) rfl (by decide) (by decide) (by decide)

/-! ## Claim C4 -/

/-- C4: for every shell oracle, world state and hook list, `RunHooks`
returns one `ExecutionResult` per hook in input order, and hands every
hook's command to the shell in input order — no short-circuit, whatever
each outcome is. -/
theorem runHooks_complete {σ : Type} (run : σ → String → (String × Option String) × σ)
    (s : σ) (hooks : List Hook) :
    ((runHooks run s hooks).1.map ExecutionResult.hook = hooks) ∧
    ((runHooks run s hooks).2.1 = hooks.map Hook.command) := by
  induction hooks generalizing s with
  | nil => exact ⟨rfl, rfl⟩
  | cons h t ih =>
      refine ⟨?_, ?_⟩ <;>
        simp [runHooks, (ih ((run s h.command).2)).1, (ih ((run s h.command).2)).2]

/-! ## Claim C5 -/

/-- Step equation: check succeeds. -/
theorem ensure_cons_check_ok {σ : Type} {run : σ → String → (String × Option String) × σ}
    {s s1 : σ} {t : Tool} {ts : List Tool} {out1 : String}
    {r : Except String Unit} {tr : List String} {s2 : σ}
    (hrun : run s t.checkCommand = ((out1, none), s1))
    (hrest : ensureToolsInstalled run s1 ts = (r, tr, s2)) :
    ensureToolsInstalled run s (t :: ts) = (r, t.checkCommand :: tr, s2) := by
  unfold ensureToolsInstalled
  rw [hrun]
  show (match ensureToolsInstalled run s1 ts with
    | (r, tr, s2) => (r, t.checkCommand :: tr, s2)) = (r, t.checkCommand :: tr, s2)
  rw [hrest]

/-- Step equation: check fails, install succeeds. -/
theorem ensure_cons_install_ok {σ : Type} {run : σ → String → (String × Option String) × σ}
    {s s1 s2 : σ} {t : Tool} {ts : List Tool} {out1 out2 e1 : String}
    {r : Except String Unit} {tr : List String} {s3 : σ}
    (hrun1 : run s t.checkCommand = ((out1, some e1), s1))
    (hrun2 : run s1 t.installCommand = ((out2, none), s2))
    (hrest : ensureToolsInstalled run s2 ts = (r, tr, s3)) :
    ensureToolsInstalled run s (t :: ts) =
      (r, t.checkCommand :: t.installCommand :: tr, s3) := by
  unfold ensureToolsInstalled
  rw [hrun1]
  show (match run s1 t.installCommand with
    | ((_, none), s2) =>
        (match ensureToolsInstalled run s2 ts with
         | (r, tr, s3) => (r, t.checkCommand :: t.installCommand :: tr, s3))
    | ((out2, some e), s2) =>
        (.error ("failed to install " ++ t.name ++ ": " ++ e ++ "\n" ++ out2),
         [t.checkCommand, t.installCommand], s2))
    = (r, t.checkCommand :: t.installCommand :: tr, s3)
  rw [hrun2]
  show (match ensureToolsInstalled run s2 ts with
    | (r, tr, s3) => (r, t.checkCommand :: t.installCommand :: tr, s3)) =
      (r, t.checkCommand :: t.installCommand :: tr, s3)
  rw [hrest]

/-- Step equation: check fails, install fails — the loop aborts. -/
theorem ensure_cons_install_fail {σ : Type} {run : σ → String → (String × Option String) × σ}
    {s s1 s2 : σ} {t : Tool} {ts : List Tool} {out1 out2 e1 e2 : String}
    (hrun1 : run s t.checkCommand = ((out1, some e1), s1))
    (hrun2 : run s1 t.installCommand = ((out2, some e2), s2)) :
    ensureToolsInstalled run s (t :: ts) =
      (.error ("failed to install " ++ t.name ++ ": " ++ e2 ++ "\n" ++ out2),
       [t.checkCommand, t.installCommand], s2) := by
  unfold ensureToolsInstalled
  rw [hrun1]
  show (match run s1 t.installCommand with
    | ((_, none), s2) =>
        (match ensureToolsInstalled run s2 ts with
         | (r, tr, s3) => (r, t.checkCommand :: t.installCommand :: tr, s3))
    | ((out2, some e), s2) =>
        (.error ("failed to install " ++ t.name ++ ": " ++ e ++ "\n" ++ out2),
         [t.checkCommand, t.installCommand], s2))
    = (.error ("failed to install " ++ t.name ++ ": " ++ e2 ++ "\n" ++ out2),
       [t.checkCommand, t.installCommand], s2)
  rw [hrun2]

/-- Step equation: a hook without a fix command is skipped. -/
theorem fix_cons_skip {σ : Type} {run : σ → String → (String × Option String) × σ}
    {s : σ} {h : Hook} {t : List Hook} (hfix : h.fixCommand = "") :
    fixHooks run s (h :: t) = fixHooks run s t := by
  conv_lhs => unfold fixHooks
  rw [if_pos hfix]

/-- Step equation: the fix command fails — the loop aborts with the doubly
wrapped error. -/
theorem fix_cons_fail {σ : Type} {run : σ → String → (String × Option String) × σ}
    {s s1 : σ} {h : Hook} {t : List Hook} {out e : String}
    (hfix : h.fixCommand ≠ "")
    (hrun : run s h.fixCommand = ((out, some e), s1)) :
    fixHooks run s (h :: t) =
      (.error ("failed to run fix command for hook " ++ h.name ++ ": "
        ++ ("failed to run fix command for " ++ h.name ++ ": " ++ e ++ "\n" ++ out)),
       [h.fixCommand], s1) := by
  unfold fixHooks runFixCommand
  rw [if_neg hfix, if_neg hfix, hrun]

/-- Step equation: the fix command succeeds. -/
theorem fix_cons_ok {σ : Type} {run : σ → String → (String × Option String) × σ}
    {s s1 : σ} {h : Hook} {t : List Hook} {out : String}
    {r : Except String Unit} {tr2 : List String} {s2 : σ}
    (hfix : h.fixCommand ≠ "")
    (hrun : run s h.fixCommand = ((out, none), s1))
    (hrest : fixHooks run s1 t = (r, tr2, s2)) :
    fixHooks run s (h :: t) = (r, h.fixCommand :: tr2, s2) := by
  unfold fixHooks runFixCommand
  rw [if_neg hfix, if_neg hfix, hrun]
  show (match fixHooks run s1 t with
    | (r, tr2, s2) => (r, [h.fixCommand] ++ tr2, s2)) = (r, h.fixCommand :: tr2, s2)
  rw [hrest]
  rfl

/-- When `EnsureToolsInstalled` fails, some tool at index `j` produced the
error: the message embeds that tool's name, the underlying error and the
captured install output; every command handed to the shell belongs to a
tool at an index at most `j`; and the final command run is tool `j`'s
install command. -/
theorem ensure_error_spec {σ : Type} (run : σ → String → (String × Option String) × σ) :
    ∀ (tools : List Tool) (s : σ) (msg : String) (trace : List String) (s' : σ),
      ensureToolsInstalled run s tools = (.error msg, trace, s') →
      ∃ j, ∃ hj : j < tools.length, ∃ e out,
        msg = "failed to install " ++ (tools.get ⟨j, hj⟩).name ++ ": " ++ e ++ "\n" ++ out ∧
        (∀ c ∈ trace, ∃ k, ∃ hk : k < tools.length, k ≤ j ∧
          (c = (tools.get ⟨k, hk⟩).checkCommand ∨ c = (tools.get ⟨k, hk⟩).installCommand)) ∧
        ∃ pre, trace = pre ++ [(tools.get ⟨j, hj⟩).installCommand] := by
  intro tools
  induction tools with
  | nil =>
      intro s msg trace s' h
      simp [ensureToolsInstalled] at h
  | cons t ts ih =>
      intro s msg trace s' h
      rcases hrun1 : run s t.checkCommand with ⟨⟨out1, err1⟩, s1⟩
      cases err1 with
      | none =>
          rcases hrest : ensureToolsInstalled run s1 ts with ⟨r, tr, s2⟩
          rw [ensure_cons_check_ok hrun1 hrest] at h
          simp only [Prod.mk.injEq] at h
          obtain ⟨h1, h2, h3⟩ := h
          subst h1
          obtain ⟨j, hj, e, out, hmsg, htrace, pre, hpre⟩ :=
            ih s1 msg tr s2 hrest
          refine ⟨j + 1, Nat.succ_lt_succ hj, e, out, hmsg, ?_, ?_⟩
          · intro c hc
            rcases List.mem_cons.mp (h2 ▸ hc) with rfl | hc
            · exact ⟨0, Nat.zero_lt_succ _, Nat.zero_le _, Or.inl rfl⟩
            · obtain ⟨k, hk, hkj, hck⟩ := htrace c hc
              exact ⟨k + 1, Nat.succ_lt_succ hk, Nat.succ_le_succ hkj, hck⟩
          · exact ⟨t.checkCommand :: pre, by rw [← h2, hpre]; rfl⟩
      | some e1 =>
          rcases hrun2 : run s1 t.installCommand with ⟨⟨out2, err2⟩, s2⟩
          cases err2 with
          | none =>
              rcases hrest : ensureToolsInstalled run s2 ts with ⟨r, tr, s3⟩
              rw [ensure_cons_install_ok hrun1 hrun2 hrest] at h
              simp only [Prod.mk.injEq] at h
              obtain ⟨h1, h2, h3⟩ := h
              subst h1
              obtain ⟨j, hj, e, out, hmsg, htrace, pre, hpre⟩ :=
                ih s2 msg tr s3 hrest
              refine ⟨j + 1, Nat.succ_lt_succ hj, e, out, hmsg, ?_, ?_⟩
              · intro c hc
                rcases List.mem_cons.mp (h2 ▸ hc) with rfl | hc
                · exact ⟨0, Nat.zero_lt_succ _, Nat.zero_le _, Or.inl rfl⟩
                · rcases List.mem_cons.mp hc with rfl | hc
                  · exact ⟨0, Nat.zero_lt_succ _, Nat.zero_le _, Or.inr rfl⟩
                  · obtain ⟨k, hk, hkj, hck⟩ := htrace c hc
                    exact ⟨k + 1, Nat.succ_lt_succ hk, Nat.succ_le_succ hkj, hck⟩
              · exact ⟨t.checkCommand :: t.installCommand :: pre, by rw [← h2, hpre]; rfl⟩
          | some e2 =>
              rw [ensure_cons_install_fail hrun1 hrun2] at h
              simp only [Prod.mk.injEq, Except.error.injEq] at h
              obtain ⟨h1, h2, h3⟩ := h
              refine ⟨0, Nat.zero_lt_succ _, e2, out2, h1.symm, ?_, ?_⟩
              · intro c hc
                rcases List.mem_cons.mp (h2 ▸ hc) with rfl | hc
                · exact ⟨0, Nat.zero_lt_succ _, Nat.le_refl 0, Or.inl rfl⟩
                · rcases List.mem_cons.mp hc with rfl | hc
                  · exact ⟨0, Nat.zero_lt_succ _, Nat.le_refl 0, Or.inr rfl⟩
                  · cases hc
              · exact ⟨[t.checkCommand], by rw [← h2]; rfl⟩

/-- When the fix loop fails, some fixable hook at index `j` caused it: the
error message wraps that hook's name; the commands handed to the shell are
exactly the fix commands of the fixable hooks before `j`, then hook `j`'s
fix command — nothing after it runs. -/
theorem fix_error_spec {σ : Type} (run : σ → String → (String × Option String) × σ) :
    ∀ (hooks : List Hook) (s : σ) (msg : String) (trace : List String) (s' : σ),
      fixHooks run s hooks = (.error msg, trace, s') →
      ∃ j, ∃ hj : j < hooks.length,
        (hooks.get ⟨j, hj⟩).fixCommand ≠ "" ∧
        (∃ e, msg = "failed to run fix command for hook "
          ++ (hooks.get ⟨j, hj⟩).name ++ ": " ++ e) ∧
        trace = ((hooks.take j).filter (fun x => !(x.fixCommand == ""))).map Hook.fixCommand
          ++ [(hooks.get ⟨j, hj⟩).fixCommand] := by
  intro hooks
  induction hooks with
  | nil =>
      intro s msg trace s' h
      simp [fixHooks] at h
  | cons hk t ih =>
      intro s msg trace s' h
      by_cases hfix : hk.fixCommand = ""
      · rw [fix_cons_skip hfix] at h
        obtain ⟨j, hj, hfj, hmsg, htr⟩ := ih s msg trace s' h
        refine ⟨j + 1, Nat.succ_lt_succ hj, hfj, hmsg, ?_⟩
        rw [htr, List.take_succ_cons, List.filter_cons]
        simp [hfix]
      · rcases hrun : run s hk.fixCommand with ⟨⟨out, err⟩, s1⟩
        cases err with
        | some e =>
            rw [fix_cons_fail hfix hrun] at h
            simp only [Prod.mk.injEq, Except.error.injEq] at h
            obtain ⟨h1, h2, h3⟩ := h
            refine ⟨0, Nat.zero_lt_succ _, hfix, ⟨_, h1.symm⟩, ?_⟩
            rw [← h2]
            rfl
        | none =>
            rcases hrest : fixHooks run s1 t with ⟨r, tr2, s2⟩
            rw [fix_cons_ok hfix hrun hrest] at h
            simp only [Prod.mk.injEq] at h
            obtain ⟨h1, h2, h3⟩ := h
            subst h1
            obtain ⟨j, hj, hfj, hmsg, htr⟩ := ih s1 msg tr2 s2 hrest
            refine ⟨j + 1, Nat.succ_lt_succ hj, hfj, hmsg, ?_⟩
            rw [← h2, htr, List.take_succ_cons, List.filter_cons]
            simp [hfix]

/-- C5: `EnsureToolsInstalled` and the fix loop of `Fix` are fail-fast.  On
an install failure the sequence aborts at that tool: the error names it and
embeds the underlying error and captured output, no later tool is checked
or installed, and the last command run is the failing install.  On a fix
failure the loop aborts at that hook: the error names it, and the commands
run are exactly the earlier fixable hooks' fix commands then the failing
one — no subsequent fix command runs. -/
theorem installer_and_fix_fail_fast :
    (∀ {σ : Type} (run : σ → String → (String × Option String) × σ)
        (tools : List Tool) (s : σ) (msg : String) (trace : List String) (s' : σ),
      ensureToolsInstalled run s tools = (.error msg, trace, s') →
      ∃ j, ∃ hj : j < tools.length, ∃ e out,
        msg = "failed to install " ++ (tools.get ⟨j, hj⟩).name ++ ": " ++ e ++ "\n" ++ out ∧
        (∀ c ∈ trace, ∃ k, ∃ hk : k < tools.length, k ≤ j ∧
          (c = (tools.get ⟨k, hk⟩).checkCommand ∨ c = (tools.get ⟨k, hk⟩).installCommand)) ∧
        ∃ pre, trace = pre ++ [(tools.get ⟨j, hj⟩).installCommand]) ∧
    (∀ {σ : Type} (run : σ → String → (String × Option String) × σ)
        (hooks : List Hook) (s : σ) (msg : String) (trace : List String) (s' : σ),
      fixHooks run s hooks = (.error msg, trace, s') →
      ∃ j, ∃ hj : j < hooks.length,
        (hooks.get ⟨j, hj⟩).fixCommand ≠ "" ∧
        (∃ e, msg = "failed to run fix command for hook "
          ++ (hooks.get ⟨j, hj⟩).name ++ ": " ++ e) ∧
        trace = ((hooks.take j).filter (fun x => !(x.fixCommand == ""))).map Hook.fixCommand
          ++ [(hooks.get ⟨j, hj⟩).fixCommand]) :=
  ⟨fun run tools s msg trace s' h => ensure_error_spec run tools s msg trace s' h,
   fun run hooks s msg trace s' h => fix_error_spec run hooks s msg trace s' h⟩

/-- C5, witness: under `unitRun`, the first tool's check and install both
fail, and the second hook's fix command fails; both loops abort naming the
offender. -/
theorem installer_and_fix_fail_fast_witness :
    (∃ j, ∃ hj : j < toolsFixture.length, ∃ e out,
        "failed to install T: boom\nbad!"
          = "failed to install " ++ (toolsFixture.get ⟨j, hj⟩).name ++ ": " ++ e ++ "\n" ++ out ∧
        (∀ c ∈ ["bad", "bad"], ∃ k, ∃ hk : k < toolsFixture.length, k ≤ j ∧
          (c = (toolsFixture.get ⟨k, hk⟩).checkCommand ∨
            c = (toolsFixture.get ⟨k, hk⟩).installCommand)) ∧
        ∃ pre, ["bad", "bad"] = pre ++ [(toolsFixture.get ⟨j, hj⟩).installCommand]) ∧
    (∃ j, ∃ hj : j < hooksFixture.length,
        (hooksFixture.get ⟨j, hj⟩).fixCommand ≠ "" ∧
        (∃ e, "failed to run fix command for hook h1: failed to run fix command for h1: boom\nbad!"
          = "failed to run fix command for hook "
            ++ (hooksFixture.get ⟨j, hj⟩).name ++ ": " ++ e) ∧
        ["bad"] = ((hooksFixture.take j).filter (fun x => !(x.fixCommand == ""))).map
            Hook.fixCommand
          ++ [(hooksFixture.get ⟨j, hj⟩).fixCommand]) :=
  ⟨installer_and_fix_fail_fast.1 unitRun toolsFixture ()
      "failed to install T: boom\nbad!" ["bad", "bad"] () rfl,
   installer_and_fix_fail_fast.2 unitRun hooksFixture ()
      "failed to run fix command for hook h1: failed to run fix command for h1: boom\nbad!"
      ["bad"] () rfl⟩

/-! ## Claims C9 and C10: the scan-state agreement invariant -/

/-- `scanAgrees` is reflexive. -/
theorem scanAgrees_refl (st : ProjectStructure) : scanAgrees st st :=
  ⟨rfl, rfl, rfl, fun _ => Iff.rfl⟩

/-- Language insertion preserves agreement. -/
theorem agrees_addLanguage (l : Language) {st1 st2 : ProjectStructure}
    (h : scanAgrees st1 st2) :
    scanAgrees (addLanguageIfNotExists l st1) (addLanguageIfNotExists l st2) := by
  obtain ⟨hl, hf, hs, ht⟩ := h
  unfold addLanguageIfNotExists hasLanguage
  rw [hl]
  split
  · exact ⟨hl, hf, hs, ht⟩
  · exact ⟨by simp [hl], hf, hs, ht⟩

/-- Framework insertion preserves agreement. -/
theorem agrees_addFramework (f : Language) {st1 st2 : ProjectStructure}
    (h : scanAgrees st1 st2) :
    scanAgrees (addFrameworkIfNotExists f st1) (addFrameworkIfNotExists f st2) := by
  obtain ⟨hl, hf, hs, ht⟩ := h
  unfold addFrameworkIfNotExists
  rw [hf]
  split
  · exact ⟨hl, hf, hs, ht⟩
  · exact ⟨hl, by simp [hf], hs, ht⟩

/-- Tool insertion preserves agreement. -/
theorem agrees_addTool (t : String) {st1 st2 : ProjectStructure}
    (h : scanAgrees st1 st2) :
    scanAgrees (addToolIfNotExists t st1) (addToolIfNotExists t st2) := by
  obtain ⟨hl, hf, hs, ht⟩ := h
  unfold addToolIfNotExists
  have hc : st1.tools.contains t = st2.tools.contains t := by
    by_cases hm : t ∈ st1.tools
    · have h1 : st1.tools.contains t = true := List.elem_iff.mpr hm
      have h2 : st2.tools.contains t = true := List.elem_iff.mpr ((ht t).mp hm)
      rw [h1, h2]
    · have h1 : st1.tools.contains t = false :=
        Bool.eq_false_iff.mpr (fun hcon => hm (List.elem_iff.mp hcon))
      have h2 : st2.tools.contains t = false :=
        Bool.eq_false_iff.mpr (fun hcon => hm ((ht t).mpr (List.elem_iff.mp hcon)))
      rw [h1, h2]
  rw [hc]
  split
  · exact ⟨hl, hf, hs, ht⟩
  · refine ⟨hl, hf, hs, fun x => ?_⟩
    simp [List.mem_append, ht x]

/-- Structure-map insertion preserves agreement. -/
theorem agrees_addStructurePath (k v : String) {st1 st2 : ProjectStructure}
    (h : scanAgrees st1 st2) :
    scanAgrees (addStructurePath k v st1) (addStructurePath k v st2) := by
  obtain ⟨hl, hf, hs, ht⟩ := h
  exact ⟨hl, hf, by simp [addStructurePath, hs], ht⟩

/-- A conditional application of an agreement-preserving transformation
preserves agreement. -/
theorem agrees_ite (c : Prop) [Decidable c] (f : ProjectStructure → ProjectStructure)
    (hf : ∀ {a b : ProjectStructure}, scanAgrees a b → scanAgrees (f a) (f b))
    {st1 st2 : ProjectStructure} (h : scanAgrees st1 st2) :
    scanAgrees (if c then f st1 else st1) (if c then f st2 else st2) := by
  split
  · exact hf h
  · exact h

/-- A fold of agreement-preserving steps preserves agreement. -/
theorem agrees_foldl {α : Type} (l : List α)
    (step : ProjectStructure → α → ProjectStructure)
    (hstep : ∀ (a : α) (s1 s2 : ProjectStructure),
      scanAgrees s1 s2 → scanAgrees (step s1 a) (step s2 a))
    {st1 st2 : ProjectStructure} (h : scanAgrees st1 st2) :
    scanAgrees (l.foldl step st1) (l.foldl step st2) := by
  induction l generalizing st1 st2 with
  | nil => exact h
  | cons a t ih => exact ih (hstep a st1 st2 h)

/-- A `condStep` with an agreement-preserving body preserves agreement. -/
theorem agrees_condStep (c : Bool) (f : ProjectStructure → ProjectStructure)
    (hf : ∀ {a b : ProjectStructure}, scanAgrees a b → scanAgrees (f a) (f b))
    {st1 st2 : ProjectStructure} (h : scanAgrees st1 st2) :
    scanAgrees (condStep c f st1) (condStep c f st2) := by
  unfold condStep
  split
  · exact hf h
  · exact h

/-- `package.json` analysis preserves agreement. -/
theorem agrees_analyzePackageJson (c : Content) {st1 st2 : ProjectStructure}
    (h : scanAgrees st1 st2) :
    scanAgrees (analyzePackageJson c st1) (analyzePackageJson c st2) := by
  unfold analyzePackageJson analyzePackageJsonDeps
  split
  · exact h
  · split
    · exact h
    · refine agrees_foldl _ _ (fun tool s1 s2 h' => ?_) ?_
      · exact agrees_condStep _ _ (agrees_addTool tool) h'
      · exact agrees_condStep _ _ (agrees_addFramework "angular")
          (agrees_condStep _ _ (agrees_addFramework "vue")
            (agrees_condStep _ _ (agrees_addFramework "react")
              (agrees_condStep _ _ (agrees_addLanguage "typescript") h)))

/-- One requirements line preserves agreement. -/
theorem agrees_analyzeRequirementsLine (line : String) {st1 st2 : ProjectStructure}
    (h : scanAgrees st1 st2) :
    scanAgrees (analyzeRequirementsLine st1 line) (analyzeRequirementsLine st2 line) := by
  unfold analyzeRequirementsLine
  split
  · exact h
  · split
    · exact h
    · refine agrees_foldl _ _ (fun tool s1 s2 h' => ?_) ?_
      · exact agrees_ite _ _ (agrees_addTool tool) h'
      split
      · exact agrees_addFramework _ h
      · split
        · exact agrees_addFramework _ h
        · split
          · exact agrees_addFramework _ h
          · exact h

/-- `requirements.txt` analysis preserves agreement. -/
theorem agrees_analyzePythonRequirements (c : Content) {st1 st2 : ProjectStructure}
    (h : scanAgrees st1 st2) :
    scanAgrees (analyzePythonRequirements c st1) (analyzePythonRequirements c st2) := by
  unfold analyzePythonRequirements
  split
  · exact h
  · exact agrees_foldl _ _ (fun line _ _ h' => agrees_analyzeRequirementsLine line h') h

/-- Tool insertion touches only the tools component. -/
theorem addTool_other (t : String) (st : ProjectStructure) :
    (addToolIfNotExists t st).languages = st.languages ∧
    (addToolIfNotExists t st).frameworks = st.frameworks ∧
    (addToolIfNotExists t st).structureMap = st.structureMap := by
  unfold addToolIfNotExists
  split
  · exact ⟨rfl, rfl, rfl⟩
  · exact ⟨rfl, rfl, rfl⟩

/-- Tool insertion: resulting membership. -/
theorem mem_addTool (t : String) (st : ProjectStructure) (x : String) :
    x ∈ (addToolIfNotExists t st).tools ↔ x ∈ st.tools ∨ x = t := by
  unfold addToolIfNotExists
  split
  · rename_i hc
    have hm := List.elem_iff.mp hc
    constructor
    · exact Or.inl
    · rintro (hx | rfl)
      · exact hx
      · exact hm
  · simp

/-- The composer tool fold leaves languages, frameworks and the structure
map unchanged. -/
theorem composer_fold_other (allDeps : List String) (ord : List (String × String)) :
    ∀ st : ProjectStructure,
      ((ord.foldl (fun st dt =>
          if allDeps.contains dt.1 then addToolIfNotExists dt.2 st else st) st).languages
        = st.languages) ∧
      ((ord.foldl (fun st dt =>
          if allDeps.contains dt.1 then addToolIfNotExists dt.2 st else st) st).frameworks
        = st.frameworks) ∧
      ((ord.foldl (fun st dt =>
          if allDeps.contains dt.1 then addToolIfNotExists dt.2 st else st) st).structureMap
        = st.structureMap) := by
  induction ord with
  | nil => intro st; exact ⟨rfl, rfl, rfl⟩
  | cons dt rest ih =>
      intro st
      rw [List.foldl_cons]
      refine ⟨?_, ?_, ?_⟩ <;>
        · rcases ih (if allDeps.contains dt.1 then addToolIfNotExists dt.2 st else st)
            with ⟨e1, e2, e3⟩
          first
            | rw [e1] | rw [e2] | rw [e3]
          split
          · first
              | exact (addTool_other _ _).1
              | exact (addTool_other _ _).2.1
              | exact (addTool_other _ _).2.2
          · rfl

/-- Membership in the tools after the composer fold. -/
theorem composer_fold_mem (allDeps : List String) (ord : List (String × String)) :
    ∀ (st : ProjectStructure) (x : String),
      x ∈ (ord.foldl (fun st dt =>
          if allDeps.contains dt.1 then addToolIfNotExists dt.2 st else st) st).tools ↔
        x ∈ st.tools ∨ ∃ dt ∈ ord, allDeps.contains dt.1 = true ∧ dt.2 = x := by
  induction ord with
  | nil => intro st x; simp
  | cons dt rest ih =>
      intro st x
      rw [List.foldl_cons, ih]
      by_cases hc : allDeps.contains dt.1 = true
      · rw [if_pos hc]
        rw [mem_addTool]
        constructor
        · rintro ((hx | rfl) | hx)
          · exact Or.inl hx
          · exact Or.inr ⟨dt, List.mem_cons_self dt rest, hc, rfl⟩
          · obtain ⟨q, hq, hq1, hq2⟩ := hx
            exact Or.inr ⟨q, List.mem_cons_of_mem dt hq, hq1, hq2⟩
        · rintro (hx | ⟨q, hq, hq1, hq2⟩)
          · exact Or.inl (Or.inl hx)
          · rcases List.mem_cons.mp hq with rfl | hq
            · exact Or.inl (Or.inr hq2.symm)
            · exact Or.inr ⟨q, hq, hq1, hq2⟩
      · rw [if_neg hc]
        constructor
        · rintro (hx | ⟨q, hq, hq1, hq2⟩)
          · exact Or.inl hx
          · exact Or.inr ⟨q, List.mem_cons_of_mem dt hq, hq1, hq2⟩
        · rintro (hx | ⟨q, hq, hq1, hq2⟩)
          · exact Or.inl hx
          · rcases List.mem_cons.mp hq with rfl | hq
            · exact absurd hq1 hc
            · exact Or.inr ⟨q, hq, hq1, hq2⟩

/-- `composer.json` analysis under two iteration orders that are
permutations of each other preserves agreement. -/
theorem agrees_analyzeComposerJson {ord1 ord2 : List (String × String)}
    (hperm : ord1.Perm ord2) (c : Content) {st1 st2 : ProjectStructure}
    (h : scanAgrees st1 st2) :
    scanAgrees (analyzeComposerJson ord1 c st1) (analyzeComposerJson ord2 c st2) := by
  unfold analyzeComposerJson
  split
  · exact h
  · split
    · exact h
    · rename_i cj heq
      have hbase : scanAgrees
          (if (cj.require ++ cj.requireDev).contains "laravel/framework" then
            addFrameworkIfNotExists "laravel" st1 else st1)
          (if (cj.require ++ cj.requireDev).contains "laravel/framework" then
            addFrameworkIfNotExists "laravel" st2 else st2) :=
        agrees_ite _ _ (agrees_addFramework "laravel") h
      obtain ⟨hbl, hbf, hbs, hbt⟩ := hbase
      obtain ⟨f11, f12, f13⟩ := composer_fold_other (cj.require ++ cj.requireDev) ord1
        (if (cj.require ++ cj.requireDev).contains "laravel/framework" then
          addFrameworkIfNotExists "laravel" st1 else st1)
      obtain ⟨f21, f22, f23⟩ := composer_fold_other (cj.require ++ cj.requireDev) ord2
        (if (cj.require ++ cj.requireDev).contains "laravel/framework" then
          addFrameworkIfNotExists "laravel" st2 else st2)
      refine ⟨by rw [f11, f21, hbl], by rw [f12, f22, hbf], by rw [f13, f23, hbs], ?_⟩
      intro x
      rw [composer_fold_mem, composer_fold_mem, hbt x]
      constructor
      · rintro (hx | ⟨q, hq, hq1, hq2⟩)
        · exact Or.inl hx
        · exact Or.inr ⟨q, hperm.mem_iff.mp hq, hq1, hq2⟩
      · rintro (hx | ⟨q, hq, hq1, hq2⟩)
        · exact Or.inl hx
        · exact Or.inr ⟨q, hperm.mem_iff.mpr hq, hq1, hq2⟩

/-- The `.js`-family extension branch preserves agreement (its condition
reads the languages, equal on both sides). -/
theorem agrees_extJs {st1 st2 : ProjectStructure} (h : scanAgrees st1 st2) :
    scanAgrees
      (if !hasLanguage "typescript" st1 then addLanguageIfNotExists "node" st1 else st1)
      (if !hasLanguage "typescript" st2 then addLanguageIfNotExists "node" st2 else st2) := by
  have hcond : hasLanguage "typescript" st1 = hasLanguage "typescript" st2 := by
    unfold hasLanguage
    rw [h.1]
  rw [hcond]
  split
  · exact agrees_addLanguage _ h
  · exact h

/-- The filename dispatch preserves agreement. -/
theorem agrees_analyzeFileByName {ord1 ord2 : List (String × String)}
    (hperm : ord1.Perm ord2) (fullPath filename : String) (c : Content)
    {st1 st2 : ProjectStructure} (h : scanAgrees st1 st2) :
    scanAgrees (analyzeFileByName ord1 fullPath filename c st1)
      (analyzeFileByName ord2 fullPath filename c st2) := by
  unfold analyzeFileByName
  split <;>
    first
      | exact agrees_addStructurePath _ _ (agrees_addLanguage _ h)
      | exact agrees_analyzePackageJson c (agrees_addStructurePath _ _ (agrees_addLanguage _ h))
      | exact agrees_addLanguage _ h
      | exact agrees_analyzePythonRequirements c
          (agrees_addStructurePath _ _ (agrees_addLanguage _ h))
      | exact agrees_analyzeComposerJson hperm c
          (agrees_addStructurePath _ _ (agrees_addLanguage _ h))
      | exact h

/-- The extension dispatch preserves agreement. -/
theorem agrees_analyzeFileByExt (filename : String) {st1 st2 : ProjectStructure}
    (h : scanAgrees st1 st2) :
    scanAgrees (analyzeFileByExt filename st1) (analyzeFileByExt filename st2) := by
  unfold analyzeFileByExt
  generalize toLowerStr (extOf filename) = e
  split <;>
    first
      | exact agrees_addLanguage _ h
      | exact agrees_extJs h
      | exact h

/-- One file's analysis preserves agreement. -/
theorem agrees_analyzeFile {ord1 ord2 : List (String × String)}
    (hperm : ord1.Perm ord2) (fullPath filename : String) (c : Content)
    {st1 st2 : ProjectStructure} (h : scanAgrees st1 st2) :
    scanAgrees (analyzeFile ord1 fullPath filename c st1)
      (analyzeFile ord2 fullPath filename c st2) :=
  agrees_analyzeFileByExt filename (agrees_analyzeFileByName hperm fullPath filename c h)

/-- Step equation: the worklist loop at a file node. -/
theorem walkList_file (ord : List (String × String)) (fuel : Nat) (path base : String)
    (c : Content) (rest : List (String × String × FsNode)) (st : ProjectStructure) :
    walkList ord (fuel + 1) ((path, base, .file c) :: rest) st =
      walkList ord fuel rest (analyzeFile ord path base c st) := rfl

/-- Step equation: the worklist loop at a directory node. -/
theorem walkList_dir (ord : List (String × String)) (fuel : Nat) (path base : String)
    (es : FsEntries) (rest : List (String × String × FsNode)) (st : ProjectStructure) :
    walkList ord (fuel + 1) ((path, base, .dir es) :: rest) st =
      if shouldSkipDirectory base then walkList ord fuel rest st
      else walkList ord fuel (entriesToTasks path es ++ rest) st := rfl

/-- An empty worklist returns the accumulator at any fuel. -/
theorem walkList_nil (ord : List (String × String)) (fuel : Nat) (st : ProjectStructure) :
    walkList ord fuel [] st = st := by cases fuel <;> rfl

/-- Unfolding equation of `nodeCount` at a file node. -/
theorem nodeCount_file (c : Content) : nodeCount (.file c) = 1 := rfl

/-- Unfolding equation of `nodeCount` at a directory node. -/
theorem nodeCount_dir (es : FsEntries) : nodeCount (.dir es) = 1 + entriesCount es := rfl

/-- Unfolding equation of `entriesCount` at a nonempty entry list. -/
theorem entriesCount_cons (name : String) (child : FsNode) (rest : FsEntries) :
    entriesCount (.cons name child rest) = nodeCount child + entriesCount rest := rfl

/-- Every tree node counts at least itself. -/
theorem nodeCount_pos (n : FsNode) : 0 < nodeCount n := by
  cases n with
  | file c => rw [nodeCount_file]; omega
  | dir es => rw [nodeCount_dir]; omega

/-- `tasksSize` is additive over worklist concatenation. -/
theorem tasksSize_append (a b : List (String × String × FsNode)) :
    tasksSize (a ++ b) = tasksSize a + tasksSize b := by
  induction a with
  | nil => simp [tasksSize]
  | cons t rest ih =>
      obtain ⟨p, q, n⟩ := t
      simp [tasksSize, ih]
      omega

/-- The pending entries of a directory weigh exactly the directory's own
entry list. -/
theorem tasksSize_entriesToTasks (dirPath : String) (es : FsEntries) :
    tasksSize (entriesToTasks dirPath es) = entriesCount es :=
  @FsEntries.rec (fun _ => True)
    (fun es => ∀ dirPath, tasksSize (entriesToTasks dirPath es) = entriesCount es)
    (fun _ => trivial)
    (fun _ _ => trivial)
    (fun dirPath => rfl)
    (fun name child rest _ ih dirPath => by
      show nodeCount child + tasksSize (entriesToTasks dirPath rest)
          = entriesCount (FsEntries.cons name child rest)
      rw [entriesCount_cons, ih dirPath])
    es dirPath

/-- Fuel irrelevance: any two fuel values bounding the worklist's pending
size give the same traversal result, so the fuel in
`detectProjectStructure` is immaterial to the embedding. -/
theorem walkList_fuel_irrel (ord : List (String × String)) :
    ∀ (fuel1 fuel2 : Nat) (tasks : List (String × String × FsNode))
      (st : ProjectStructure), tasksSize tasks ≤ fuel1 → tasksSize tasks ≤ fuel2 →
      walkList ord fuel1 tasks st = walkList ord fuel2 tasks st := by
  intro fuel1
  induction fuel1 with
  | zero =>
      intro fuel2 tasks st h1 h2
      cases tasks with
      | nil => rw [walkList_nil, walkList_nil]
      | cons t rest =>
          obtain ⟨p, b, n⟩ := t
          exfalso
          have hp := nodeCount_pos n
          have h1x : nodeCount n + tasksSize rest ≤ 0 := h1
          omega
  | succ f ih =>
      intro fuel2 tasks st h1 h2
      cases tasks with
      | nil => rw [walkList_nil, walkList_nil]
      | cons t rest =>
          obtain ⟨p, b, n⟩ := t
          have hp := nodeCount_pos n
          have h1x : nodeCount n + tasksSize rest ≤ f + 1 := h1
          cases fuel2 with
          | zero =>
              exfalso
              have h2x : nodeCount n + tasksSize rest ≤ 0 := h2
              omega
          | succ g =>
              have h2x : nodeCount n + tasksSize rest ≤ g + 1 := h2
              cases n with
              | file c =>
                  rw [walkList_file, walkList_file]
                  apply ih <;> omega
              | dir es =>
                  rw [walkList_dir, walkList_dir]
                  have h3 := tasksSize_entriesToTasks p es
                  have h4 : nodeCount (FsNode.dir es) = 1 + entriesCount es := nodeCount_dir es
                  by_cases hs : shouldSkipDirectory b = true
                  · rw [if_pos hs, if_pos hs]
                    apply ih <;> omega
                  · rw [if_neg hs, if_neg hs]
                    apply ih <;> rw [tasksSize_append] <;> omega

/-- `detectProjectStructure` computes the same structure under any fuel at
least `nodeCount root`: its concrete fuel choice is immaterial, and the
traversal provably never runs out. -/
theorem detect_any_fuel (ord : List (String × String)) (rootPath : String)
    (root : FsNode) (fuel : Nat) (h : nodeCount root ≤ fuel) :
    detectProjectStructure ord rootPath root =
      walkList ord fuel [(rootPath, pathBase rootPath, root)] emptyStructure :=
  walkList_fuel_irrel ord (nodeCount root) fuel
    [(rootPath, pathBase rootPath, root)] emptyStructure (Nat.le_refl _) h

/-- The traversal preserves agreement between two runs whose composer-table
iteration orders are permutations of each other, at every fuel and every
worklist. -/
theorem agrees_walkList {ord1 ord2 : List (String × String)} (hperm : ord1.Perm ord2) :
    ∀ (fuel : Nat) (tasks : List (String × String × FsNode))
      (st1 st2 : ProjectStructure), scanAgrees st1 st2 →
      scanAgrees (walkList ord1 fuel tasks st1) (walkList ord2 fuel tasks st2) := by
  intro fuel
  induction fuel with
  | zero =>
      intro tasks st1 st2 h
      cases tasks with
      | nil => rw [walkList_nil, walkList_nil]; exact h
      | cons t rest => exact h
  | succ f ih =>
      intro tasks st1 st2 h
      cases tasks with
      | nil => rw [walkList_nil, walkList_nil]; exact h
      | cons t rest =>
          obtain ⟨p, b, n⟩ := t
          cases n with
          | file c =>
              rw [walkList_file, walkList_file]
              exact ih rest _ _ (agrees_analyzeFile hperm p b c h)
          | dir es =>
              rw [walkList_dir, walkList_dir]
              by_cases hs : shouldSkipDirectory b = true
              · rw [if_pos hs, if_pos hs]
                exact ih rest st1 st2 h
              · rw [if_neg hs, if_neg hs]
                exact ih _ st1 st2 h

/-! ## Claim C9 -/

/-- C9, counterexample: two runs of the scan over the same unmodified tree
(one `composer.json` declaring two recognized PHP tools) are two iteration
orders of the composer tool-table map; with the table order and its
reversal — a permutation, as any two iterations of one Go map are — the
resulting `ProjectStructure`s are not structurally equal (the tools
sequence order differs). -/
theorem detect_scan_order_dependent :
    (composerToolsTable.reverse).Perm composerToolsTable ∧
    detectProjectStructure composerToolsTable "proj" composerTree ≠
      detectProjectStructure composerToolsTable.reverse "proj" composerTree :=
  ⟨by decide, by decide⟩

/-- C9, amended: two scans of the same unmodified tree always agree on the
languages, frameworks and structure map, and their tools sequences contain
the same elements; full structural equality can fail only in the order of
the tools sequence, through the composer tool-table iteration order. -/
theorem detect_scan_agreement (ord1 ord2 : List (String × String))
    (hperm : ord1.Perm ord2) (rootPath : String) (root : FsNode) :
    scanAgrees (detectProjectStructure ord1 rootPath root)
      (detectProjectStructure ord2 rootPath root) :=
  agrees_walkList hperm (nodeCount root) [(rootPath, pathBase rootPath, root)]
    emptyStructure emptyStructure (scanAgrees_refl emptyStructure)

/-- C9, witness: the agreement at the concrete composer tree and the two
concrete iteration orders of the counterexample. -/
theorem detect_scan_agreement_witness :
    scanAgrees (detectProjectStructure composerToolsTable "proj" composerTree)
      (detectProjectStructure composerToolsTable.reverse "proj" composerTree) :=
  detect_scan_agreement composerToolsTable composerToolsTable.reverse
    (by decide) "proj" composerTree

/-! ## Claim C10 -/

/-- C10: when the final element of the root path begins with a dot — the
path `"."` included — the walk function returns `SkipDir` at the root
itself, `filepath.Walk` returns nil, and `DetectProjectStructure` returns
the fresh empty structure with no error, whatever the tree holds. -/
theorem detect_dot_root_empty (ord : List (String × String)) (rootPath : String)
    (es : FsEntries) (h : strStartsWith (pathBase rootPath) "." = true) :
    detectProjectStructure ord rootPath (.dir es) = emptyStructure := by
  have hskip : shouldSkipDirectory (pathBase rootPath) = true := by
    unfold shouldSkipDirectory
    rw [h]
    simp
  have hsz : nodeCount (FsNode.dir es) = entriesCount es + 1 := by
    rw [nodeCount_dir]; omega
  show walkList ord (nodeCount (FsNode.dir es))
      [(rootPath, pathBase rootPath, FsNode.dir es)] emptyStructure = emptyStructure
  rw [hsz, walkList_dir, if_pos hskip, walkList_nil]

/-- C10, witness: scanning from the root path `"."` over a tree containing
a `go.mod` yields the empty structure. -/
theorem detect_dot_root_empty_witness :
    strStartsWith (pathBase ".") "." = true ∧
    detectProjectStructure composerToolsTable "." (.dir goTree) = emptyStructure :=
  ⟨by decide, detect_dot_root_empty composerToolsTable "." goTree (by decide)⟩

/-! ## Claim C1 -/

set_option maxRecDepth 4096 in
/-- C1: refuted on the code — the generator's rendering of a command's
`output_rules` iterates a Go `map[string]string` (`for key, value := range
cmd.OutputRules`, templates.go), so the emitted text depends on the map
iteration order, which Go leaves unspecified even between two runs on one
unchanged value.  Any reversal is a permutation of the rule list — as any
two iterations of one Go map are — yet for the Go-only project structure
the texts generated under the recorded order and under its reversal differ
byte-wise, violating the spec's determinism requirement. -/
theorem generate_template_order_dependent :
    (∀ (l : List (String × String)), (List.reverse l).Perm l) ∧
    generateTemplate id goOnlyStruct ≠ generateTemplate List.reverse goOnlyStruct :=
  ⟨fun l => List.reverse_perm l, by decide⟩

end QG
